import Mathlib

/-!
Shallow embedding of the multilineMAX7219 library (multilineMAX7219.py) and
proofs about its graphics / register-protocol layer.

Modelling conventions:
* Python ints are unbounded and signed, so cell values and transmitted bytes
  are modelled as `Int`; indices and loop counters as `Nat` (with `Int` where
  the source can legitimately receive negative arguments).
* The global `gfx_buffer` (a `MATRIX_WIDTH*8` by `MATRIX_HEIGHT*8` array of
  ints, column-major `gfx_buffer[x][y]`) is modelled as a total function
  `Buf = Nat → Nat → Int`; every library function that mutates it becomes a
  `Buf → Buf` transformer.  `MATRIX_WIDTH`/`MATRIX_HEIGHT` are the parameters
  `W`/`H` (the shipped source fixes both to 3).
* Python list accesses `l[i]` at indices that are in range are modelled by
  `List.getD`; all theorems below only exercise in-range accesses, matching
  the source (out-of-range accesses would raise `IndexError` in Python and
  are outside every claim's hypotheses).
-/

/-- Scroll/wipe direction constant `DIR_U = 1` (source line 151). -/

def DIR_U : Nat := 1

/-- Scroll/wipe direction constant `DIR_R = 2` (source line 152). -/

def DIR_R : Nat := 2

/-- Scroll/wipe direction constant `DIR_D = 4` (source line 153). -/

def DIR_D : Nat := 4

/-- Scroll/wipe direction constant `DIR_L = 8` (source line 154). -/

def DIR_L : Nat := 8

/-- Diagonal direction `DIR_RU = 3` (source line 155). -/

def DIR_RU : Nat := 3

/-- Diagonal direction `DIR_RD = 6` (source line 156). -/

def DIR_RD : Nat := 6

/-- Diagonal direction `DIR_LU = 9` (source line 157). -/

def DIR_LU : Nat := 9

/-- Diagonal direction `DIR_LD = 12` (source line 158). -/

def DIR_LD : Nat := 12

/-- Pixel state constant `GFX_OFF = 0` (source line 160). -/

def GFX_OFF : Nat := 0

/-- Pixel state constant `GFX_ON = 1` (source line 161). -/

def GFX_ON : Nat := 1

/-- Pixel state constant `GFX_INVERT = 2` (source line 162). -/

def GFX_INVERT : Nat := 2

/-- The graphics buffer `gfx_buffer[x][y]`, as a total function. -/

abbrev Buf : Type := Nat → Nat → Int

/-- `cellD g i j` is the Python access `g[i][j]` on a 2-d list (in-range in
all uses below). -/

def cellD (g : List (List Int)) (i j : Nat) : Int :=
  (g.getD i []).getD j 0

/-- The `new_graphic` "errorhandling" normalisation that `gfx_scroll`,
`gfx_scroll_towards`, `gfx_effect_wipe` and `gfx_effect_rain` all perform:
each column is padded with zeros / truncated to `ey` entries
(`(item + [0]*ey)[:ey]`), then the list of columns is padded with zero
columns / truncated to `ex` columns (`(g + [[0]*ey]*ex)[:ex]`). -/

def normGrid (g : List (List Int)) (ex ey : Nat) : List (List Int) :=
  ((g.map (fun item => (item ++ List.replicate ey 0).take ey)) ++
    List.replicate ex (List.replicate ey 0)).take ex

/-- `NO_OP * k`: the no-op pair `[0, 0]` repeated `k` times (source line 125). -/

def noopRep (k : Nat) : List Int :=
  (List.replicate k ([0, 0] : List Int)).flatten

/-- `send_matrix_reg_byte(matrix, register, data)` (source lines 182-186):
if `matrix in MATRICES` (`MATRICES = range(NUM_MATRICES)`, so `0 ≤ matrix <
N`), send `NO_OP*(N-1-matrix) + [register, data] + NO_OP*matrix`; otherwise
send nothing.  `N` is `NUM_MATRICES`.  The returned list is the byte burst
handed to `send_bytes` (empty list = no transmission at all). -/

def send_matrix_reg_byte (N : Nat) (matrix : Int) (register data : Int) : List Int :=
  if 0 ≤ matrix ∧ matrix < (N : Int) then
    noopRep (N - 1 - matrix.toNat) ++ [register, data] ++ noopRep matrix.toNat
  else []

/-- `gfx_set_px(g_x, g_y, state)` (source lines 419-427): guarded by
`g_x in gfx_columns and g_y in gfx_rows`; `GFX_ON` writes 1, `GFX_OFF`
writes 0, `GFX_INVERT` writes `(old ^ 1) & 0x01`, any other state writes
nothing. -/

def gfx_set_px (W H : Nat) (gx gy : Int) (state : Nat) (b : Buf) : Buf :=
  if 0 ≤ gx ∧ gx < ((W : Int) * 8) ∧ 0 ≤ gy ∧ gy < ((H : Int) * 8) then
    fun x y =>
      if x = gx.toNat ∧ y = gy.toNat then
        if state = GFX_ON then 1
        else if state = GFX_OFF then 0
        else if state = GFX_INVERT then Int.land (Int.xor (b x y) 1) 1
        else b x y
      else b x y
  else b

/-! ### Renderer (`gfx_render`, source lines 761-771) -/

/-- The per-chip byte assembled by `gfx_render`:
`val += gfx_buffer[g_col + (matrix//MATRIX_HEIGHT)*8][px + (matrix%MATRIX_HEIGHT)*8] * pow(2, 7-px)`
for `px in range(8)`. -/

def renderChipVal (H : Nat) (b : Buf) (g_col matrix : Nat) : Int :=
  (List.range 8).foldl
    (fun val px =>
      val + b (g_col + (matrix / H) * 8) (px + (matrix % H) * 8) * (2 : Int) ^ (7 - px)) 0

/-- One `column_data` burst of `gfx_render` for column register `g_col + 1`:
`for matrix in reversed(range(NUM_MATRICES)): column_data += [g_col+1, val]`,
then the whole list is sent as one `send_bytes` burst. -/

def gfx_render_burst (W H : Nat) (b : Buf) (g_col : Nat) : List Int :=
  ((List.range (W * H)).reverse).foldl
    (fun column_data matrix =>
      column_data ++ [((g_col : Int) + 1), renderChipVal H b g_col matrix]) []

/-- Closed recursive form of the burst: pairs for chips `n-1, n-2, ..., 0`. -/

def renderPairs (H : Nat) (b : Buf) (g_col : Nat) : Nat → List Int
  | 0 => []
  | n + 1 => ((g_col : Int) + 1) :: renderChipVal H b g_col n :: renderPairs H b g_col n

/-! ### `gfx_scroll` (source lines 579-632)

Each direction branch of the Python loop writes every cell of the rectangle
exactly once and reads only cells it has not yet overwritten (the `DIR_L`
scan goes left-to-right reading `g_x+distance`; `DIR_R` goes right-to-left
reading `g_x-distance`; `DIR_U` top-down reading `g_y-distance`; `DIR_D`
bottom-up reading `g_y+distance`; for `distance = 0` every write is the
identity), so each branch equals a pure pointwise function of the buffer it
starts from. -/

/-- The `direction & DIR_L` branch of `gfx_scroll` as a pointwise update:
inside the rectangle, `gfx_buffer[g_x][g_y] = gfx_buffer[g_x+distance][g_y]`
when `g_x+distance` stays inside, else
`new_graphic[g_x - start_x - extent_x + distance][g_y - start_y]`. -/

def scroll_shift_L (sx ex sy ey d : Nat) (g : List (List Int)) (b : Buf) : Buf :=
  fun x y =>
    if sx ≤ x ∧ x < sx + ex ∧ sy ≤ y ∧ y < sy + ey then
      if x + d < sx + ex then b (x + d) y
      else cellD g ((x + d) - (sx + ex)) (y - sy)
    else b x y

/-- The `direction & DIR_R` branch of `gfx_scroll`: inside the rectangle,
`new_graphic[g_x - start_x + extent_x - distance][g_y - start_y]` when
`g_x - distance < start_x`, else `gfx_buffer[g_x-distance][g_y]`. -/

def scroll_shift_R (sx ex sy ey d : Nat) (g : List (List Int)) (b : Buf) : Buf :=
  fun x y =>
    if sx ≤ x ∧ x < sx + ex ∧ sy ≤ y ∧ y < sy + ey then
      if x < sx + d then cellD g ((x + ex) - (sx + d)) (y - sy)
      else b (x - d) y
    else b x y

/-- The `direction & DIR_U` branch of `gfx_scroll`: inside the rectangle,
`new_graphic[g_x - start_x][g_y - start_y + extent_y - distance]` when
`g_y - distance < start_y`, else `gfx_buffer[g_x][g_y-distance]`. -/

def scroll_shift_U (sx ex sy ey d : Nat) (g : List (List Int)) (b : Buf) : Buf :=
  fun x y =>
    if sx ≤ x ∧ x < sx + ex ∧ sy ≤ y ∧ y < sy + ey then
      if y < sy + d then cellD g (x - sx) ((y + ey) - (sy + d))
      else b x (y - d)
    else b x y

/-- The `direction & DIR_D` branch of `gfx_scroll`: inside the rectangle,
`gfx_buffer[g_x][g_y+distance]` when `g_y+distance` stays inside, else
`new_graphic[g_x - start_x][g_y - start_y - extent_y + distance]`. -/

def scroll_shift_D (sx ex sy ey d : Nat) (g : List (List Int)) (b : Buf) : Buf :=
  fun x y =>
    if sx ≤ x ∧ x < sx + ex ∧ sy ≤ y ∧ y < sy + ey then
      if y + d < sy + ey then b x (y + d)
      else cellD g (x - sx) ((y + d) - (sy + ey))
    else b x y

/-- `gfx_scroll(direction, new_graphic, start_x, extent_x, start_y,
extent_y, distance)` (source lines 579-632): clamp `distance` against the
raw extents for the pure cardinal directions, clamp the rectangle to the
buffer, normalise `new_graphic`, then apply the horizontal branch
(`direction & DIR_L`, else `direction & DIR_R`) followed by the vertical
branch (`direction & DIR_U`, else `direction & DIR_D`).  `new_graphic` is
passed as an explicit 2-d list (the `GFX_OFF`/`GFX_ON` sentinel arguments of
the Python code stand for the all-zero / all-one lists). -/

def gfx_scroll (W H : Nat) (direction : Nat) (new_graphic : List (List Int))
    (start_x extent_x start_y extent_y distance : Nat) (b : Buf) : Buf :=
  let d1 := if (direction = DIR_L ∨ direction = DIR_R) ∧ extent_x < distance
    then extent_x else distance
  let d := if (direction = DIR_U ∨ direction = DIR_D) ∧ extent_y < d1
    then extent_y else d1
  let sx := min (8 * W - 1) start_x
  let ex := min (8 * W - sx) extent_x
  let sy := min (8 * H - 1) start_y
  let ey := min (8 * H - sy) extent_y
  let g := normGrid new_graphic ex ey
  let b1 :=
    if direction &&& DIR_L ≠ 0 then scroll_shift_L sx ex sy ey d g b
    else if direction &&& DIR_R ≠ 0 then scroll_shift_R sx ex sy ey d g b
    else b
  if direction &&& DIR_U ≠ 0 then scroll_shift_U sx ex sy ey d g b1
  else if direction &&& DIR_D ≠ 0 then scroll_shift_D sx ex sy ey d g b1
  else b1

/-! ### `gfx_scroll_towards` (source lines 513-577) -/

/-- `gfx_read_buffer()` with no arguments (source lines 750-757): a deep
copy of the whole buffer as a 2-d list. -/

def gfx_read_buffer (W H : Nat) (b : Buf) : List (List Int) :=
  (List.range (8 * W)).map (fun x => (List.range (8 * H)).map (fun y => b x y))

/-- One pass of the `gfx_scroll_towards` loop body (the `for l_col …` /
`for l_row …` loop of the chosen direction branch, source lines 542-569):
each iteration builds the single-column/row `graphic` prescribed by the
source and calls `gfx_scroll` over the whole buffer with distance 1.
`new_graphic` is the (already normalised) grid the pass reveals.
The interleaved `gfx_render()`/`time.sleep` calls do not touch the buffer. -/

def scroll_towards_pass (W H direction : Nat) (new_graphic : List (List Int))
    (b : Buf) : Buf :=
  if direction &&& DIR_L ≠ 0 then
    (List.range (8 * W)).foldl
      (fun bb l_col =>
        gfx_scroll W H DIR_L [new_graphic.getD l_col []] 0 (8 * W) 0 (8 * H) 1 bb) b
  else if direction &&& DIR_R ≠ 0 then
    ((List.range (8 * W)).reverse).foldl
      (fun bb l_col =>
        gfx_scroll W H DIR_R
          (List.replicate (new_graphic.length - 1) (List.replicate (H * 8) 0) ++
            [new_graphic.getD l_col []])
          0 (8 * W) 0 (8 * H) 1 bb) b
  else if direction &&& DIR_U ≠ 0 then
    ((List.range (8 * H)).reverse).foldl
      (fun bb l_row =>
        gfx_scroll W H DIR_U
          ((List.range new_graphic.length).map
            (fun col => List.replicate (H * 8 - 1) 0 ++ [cellD new_graphic col l_row]))
          0 (8 * W) 0 (8 * H) 1 bb) b
  else if direction &&& DIR_D ≠ 0 then
    (List.range (8 * H)).foldl
      (fun bb l_row =>
        gfx_scroll W H DIR_D
          ((List.range new_graphic.length).map
            (fun col => [cellD new_graphic col l_row] ++ List.replicate (H * 8 - 1) 0))
          0 (8 * W) 0 (8 * H) 1 bb) b
  else b

/-- The `while` loop of `gfx_scroll_towards` for a positive `repeats`
count: run one pass with the current `new_graphic`, then swap
`new_graphic, old_graphic = old_graphic, new_graphic`. -/

def towardsGo (W H direction : Nat) :
    Nat → List (List Int) → List (List Int) → Buf → Buf
  | 0, _, _, b => b
  | Nat.succ r, newg, oldg, b =>
      towardsGo W H direction r oldg newg (scroll_towards_pass W H direction newg b)

/-- `gfx_scroll_towards(new_graphic, repeats, speed, direction)` (source
lines 513-577) for `repeats ≥ 1` (the `repeats <= 0` indefinite mode never
returns): normalise `new_graphic` to `(MATRIX_WIDTH*8) x (8*MATRIX_HEIGHT)`,
snapshot `old_graphic = gfx_read_buffer()`, then loop `repeats` passes,
swapping `new_graphic` and `old_graphic` after each pass. -/

def gfx_scroll_towards (W H : Nat) (new_graphic : List (List Int))
    (repeats direction : Nat) (b : Buf) : Buf :=
  towardsGo W H direction repeats (normGrid new_graphic (W * 8) (8 * H))
    (gfx_read_buffer W H b) b

/-! ### `gfx_effect_wipe`, diagonal transition `DIR_RU` (source lines 678-684)

The inner `for stage in range(min(iter+1, maximum))` loop of one iteration
writes `gfx_buffer[iter-stage][stage] = new_graphic[iter-stage][stage]`
whenever `iter - stage < MATRIX_WIDTH*8 and stage < MATRIX_HEIGHT*8`; it
reads only `new_graphic`, so one iteration is the pointwise update below (a
cell `(x, y)` is written iff `stage = y` passes the guards and
`x = iter - stage`). -/

/-- One iteration of the `DIR_RU` wipe (`maximum = max(MATRIX_HEIGHT*8,
MATRIX_WIDTH*8)`, source line 653). -/

def gfx_effect_wipe_stepRU (W H : Nat) (g : List (List Int)) (it : Nat) (b : Buf) : Buf :=
  fun x y =>
    if y < min (it + 1) (max (H * 8) (W * 8)) ∧ it - y < W * 8 ∧ y < H * 8 ∧
        x = it - y then
      cellD g (it - y) y
    else b x y

/-- The `DIR_RU` branch of `gfx_effect_wipe`: normalise `new_graphic`, then
run `MATRIX_HEIGHT*8 + MATRIX_WIDTH*8 - 1` iterations (one `gfx_render` per
iteration; rendering does not touch the buffer). -/

def gfx_effect_wipe_RU (W H : Nat) (new_graphic : List (List Int)) (b : Buf) : Buf :=
  let g := normGrid new_graphic (W * 8) (8 * H)
  (List.range (H * 8 + W * 8 - 1)).foldl
    (fun bb it => gfx_effect_wipe_stepRU W H g it bb) b

/-! ### `gfx_sprite_array` (source lines 497-511) -/

/-- Python list indexing: a negative index `i` addresses `i + len`
(wrap-around from the end).  Indices below `-len` raise `IndexError` in
Python and are not exercised by any theorem below. -/

def pyIdx (L : Nat) (i : Int) : Nat :=
  (if i < 0 then i + (L : Int) else i).toNat

/-- The value `gfx_sprite_array` stores for one sprite cell `v` over the old
buffer value `old`: `GFX_ON` stores `v`, `GFX_OFF` stores `~v` (Python's
bitwise complement), `GFX_INVERT` stores `v ^ old`, any other state stores
nothing. -/

def sprite_write_val (state : Nat) (v old : Int) : Int :=
  if state = GFX_ON then v
  else if state = GFX_OFF then ~~~v
  else if state = GFX_INVERT then Int.xor v old
  else old

/-- The body of the doubly nested loop of `gfx_sprite_array` for cell
`(l_col, l_row)`: guarded by `(l_col + start_x) < len(gfx_buffer) and
(l_row + start_y) < len(gfx_buffer[l_col + start_x])` (the buffer is
rectangular, so the second length is always `MATRIX_HEIGHT*8`), then writes
`gfx_buffer[l_col + start_x][l_row + start_y]` through Python indexing
(negative positions wrap via `pyIdx`). -/

def sprite_cell_write (W H : Nat) (sprite : List (List Int))
    (start_x start_y : Int) (state : Nat) (l_col l_row : Nat) (b2 : Buf) : Buf :=
  if ((l_col : Int) + start_x < ((W : Int) * 8)) ∧
      ((l_row : Int) + start_y < ((H : Int) * 8)) then
    fun x y =>
      if x = pyIdx (W * 8) ((l_col : Int) + start_x) ∧
          y = pyIdx (H * 8) ((l_row : Int) + start_y) then
        sprite_write_val state (cellD sprite l_col l_row)
          (b2 (pyIdx (W * 8) ((l_col : Int) + start_x))
            (pyIdx (H * 8) ((l_row : Int) + start_y)))
      else b2 x y
  else b2

/-- The inner `for l_row in range(len(sprite[l_col]))` loop. -/

def sprite_col_write (W H : Nat) (sprite : List (List Int))
    (start_x start_y : Int) (state : Nat) (l_col : Nat) (b1 : Buf) : Buf :=
  (List.range (sprite.getD l_col []).length).foldl
    (fun b2 l_row => sprite_cell_write W H sprite start_x start_y state l_col l_row b2) b1

/-- `gfx_sprite_array(sprite, start_x, start_y, state)` (source lines
497-511): the outer `for l_col in range(len(sprite))` loop. -/

def gfx_sprite_array (W H : Nat) (sprite : List (List Int))
    (start_x start_y : Int) (state : Nat) (b : Buf) : Buf :=
  (List.range sprite.length).foldl
    (fun b1 l_col => sprite_col_write W H sprite start_x start_y state l_col b1) b

/-! ### Vertical bit-shift blending (source lines 241-244 and 383-392) -/

/-- The `DIR_U` branch column value of `send_matrix_shifted_letter` (source
lines 241-244): after `progress = progress % 8` (line 225),
`show_char[col] = (curr_char[col] >> progress) + (next_char[col] << (8-progress))`. -/

def send_matrix_shifted_letter_colU (curr_char next_char : List Nat)
    (progress col : Nat) : Nat :=
  ((curr_char.getD col 0) >>> (progress % 8)) +
    ((next_char.getD col 0) <<< (8 - progress % 8))

/-- The `DIR_U` branch column value of `scroll_message_vert` (source line
392): `scrolled_char[col] = (this_char[col] >> stage) + (next_char[col] <<
(8-stage))`, `stage in range(8)`. -/

def scroll_message_vert_colU (this_char next_char : List Nat)
    (stage col : Nat) : Nat :=
  ((this_char.getD col 0) >>> stage) + ((next_char.getD col 0) <<< (8 - stage))

/-! ### `gfx_effect_rain` (source lines 707-748)

Per column `l_col` and iteration `iter`, the source scans `l_row` from the
first empty (None) cell upward; at each row it finds the nearest non-None
cell strictly above (`nextNotNone`), moves it down to `l_row` when it is
within `speeds[l_col]` rows (`nxt = min(nextNotNone[0], l_row +
speeds[l_col])`; when `nxt` is a None cell the two assignments are a
no-op), and when no cell is above and `l_row` is the top row it injects
`new_graphic[l_col][iter]` there. -/

/-- `emptyCells[0]`: the first index holding `None`. -/

def firstEmpty (t : List (Option Int)) : Option Nat :=
  t.findIdx? (fun i => i.isNone)

/-- `nextNotNone[0]`: the first index `idx > l` with `t[idx] != None`. -/

def nextNotNone (t : List (Option Int)) (l : Nat) : Option Nat :=
  ((t.drop (l + 1)).findIdx? (fun i => i.isSome)).map (fun k => k + (l + 1))

/-- One `l_row` step of the inner loop (`M = MATRIX_HEIGHT*8 - 1` is the
top row index, `s = speeds[l_col]`, `gval = new_graphic[l_col][iter]`). -/

def rainRowStep (s M : Nat) (gval : Int) (t : List (Option Int)) (l : Nat) :
    List (Option Int) :=
  match nextNotNone t l with
  | some n0 =>
      let nxt := min n0 (l + s)
      if nxt < M + 1 then (t.set l (t.getD nxt none)).set nxt none else t
  | none => if l = M then t.set M (some gval) else t

/-- One iteration of the per-column loop: `for l_row in
range(firstEmptyCell, MATRIX_HEIGHT*8)` (skipped entirely when the column
has no empty cell). -/

def rainSweep (s M : Nat) (gval : Int) (t : List (Option Int)) :
    List (Option Int) :=
  match firstEmpty t with
  | some fe => (List.range' fe (M + 1 - fe)).foldl (rainRowStep s M gval) t
  | none => t

/-- The `tmp_buffer` state of `gfx_effect_rain(new_graphic)` after all
iterations `iter in range(1, MATRIX_HEIGHT*8)`: starts all-None with
`tmp_buffer[l_col][MATRIX_HEIGHT*8-1] = new_graphic[l_col][0]`, then each
iteration sweeps every column (columns are independent) injecting
`new_graphic[l_col][iter]` at the top. -/

def gfx_effect_rain_tmp (W H : Nat) (ng : List (List Int)) (speeds : List Nat) :
    List (List (Option Int)) :=
  let g := normGrid ng (W * 8) (8 * H)
  let t0 := (List.range (W * 8)).map
    (fun c => List.replicate (H * 8 - 1) none ++ [some (cellD g c 0)])
  (List.range' 1 (H * 8 - 1)).foldl
    (fun t k =>
      t.mapIdx (fun c tc => rainSweep (speeds.getD c 0) (H * 8 - 1) (cellD g c k) tc))
    t0

/-- The graphics buffer after the final iteration's copy-out:
`gfx_buffer[g_col][g_row] = 1 if tmp_buffer[g_col][g_row] == 1 else 0`. -/

def gfx_effect_rain_buf (W H : Nat) (ng : List (List Int)) (speeds : List Nat) :
    Buf :=
  fun c r =>
    if ((gfx_effect_rain_tmp W H ng speeds).getD c []).getD r none = some 1 then 1
    else 0

/-- The same per-column process, column content `gc`, speed `s`. -/

def colRain (s M : Nat) (gc : List Int) : List (Option Int) :=
  (List.range' 1 M).foldl (fun t k => rainSweep s M (gc.getD k 0) t)
    (List.replicate M none ++ [some (gc.getD 0 0)])

/-- The column of injection indices `[0, 1, …, n-1]` as `Int` values. -/

def idxColumn (n : Nat) : List Int :=
  (List.range n).map (fun (k : Nat) => ((k : Nat) : Int))

/-! ### Helper lemmas about `noopRep` and `normGrid` -/

theorem noopRep_succ (n : Nat) : noopRep (n + 1) = 0 :: 0 :: noopRep n := by
  simp [noopRep, List.replicate_succ]

theorem noopRep_length (k : Nat) : (noopRep k).length = 2 * k := by
  induction k with
  | zero => rfl
  | succ n ih =>
    rw [noopRep_succ]
    simp [ih]
    omega

theorem noopRep_getElem? (k j : Nat) :
    (noopRep k)[j]? = if j < 2 * k then some 0 else none := by
  induction k generalizing j with
  | zero => simp [noopRep]
  | succ n ih =>
    rw [noopRep_succ]
    match j with
    | 0 => rw [List.getElem?_cons_zero, if_pos (by omega)]
    | 1 => rw [List.getElem?_cons_succ, List.getElem?_cons_zero, if_pos (by omega)]
    | j + 2 =>
      simp only [List.getElem?_cons_succ]
      rw [ih]
      by_cases h : j < 2 * n
      · rw [if_pos h, if_pos (by omega)]
      · rw [if_neg h, if_neg (by omega)]

theorem burst_getElem? (a b : Nat) (register data : Int) (j : Nat) :
    (noopRep a ++ [register, data] ++ noopRep b)[j]? =
      if j < 2 * a then some 0
      else if j = 2 * a then some register
      else if j = 2 * a + 1 then some data
      else if j < 2 * a + 2 + 2 * b then some 0
      else none := by
  rw [List.append_assoc]
  rcases Nat.lt_or_ge j (2 * a) with h | h
  · rw [List.getElem?_append_left (by rw [noopRep_length]; omega),
      noopRep_getElem?, if_pos h, if_pos h]
  · rw [List.getElem?_append_right (by rw [noopRep_length]; omega), noopRep_length]
    simp only [List.cons_append, List.nil_append]
    by_cases h1 : j = 2 * a
    · rw [h1, Nat.sub_self, List.getElem?_cons_zero,
        if_neg (by omega), if_pos rfl]
    · by_cases h2 : j = 2 * a + 1
      · have hs : j - 2 * a = 1 := by omega
        rw [hs, List.getElem?_cons_succ, List.getElem?_cons_zero,
          if_neg (by omega), if_neg h1, if_pos h2]
      · obtain ⟨t, ht⟩ : ∃ t, j - 2 * a = t + 2 := ⟨j - 2 * a - 2, by omega⟩
        rw [ht, List.getElem?_cons_succ, List.getElem?_cons_succ, noopRep_getElem?]
        by_cases h4 : j < 2 * a + 2 + 2 * b
        · rw [if_pos (show t < 2 * b by omega), if_neg (show ¬ j < 2 * a by omega),
            if_neg h1, if_neg h2, if_pos h4]
        · rw [if_neg (show ¬ t < 2 * b by omega), if_neg (show ¬ j < 2 * a by omega),
            if_neg h1, if_neg h2, if_neg h4]

theorem normGrid_cellD (g : List (List Int)) (ex ey x y : Nat)
    (hx : x < ex) (hy : y < ey) :
    cellD (normGrid g ex ey) x y = cellD g x y := by
  unfold cellD normGrid
  simp only [List.getD_eq_getElem?_getD]
  rw [List.getElem?_take_of_lt hx]
  rcases Nat.lt_or_ge x g.length with hxg | hxg
  · rw [List.getElem?_append_left (by simpa using hxg), List.getElem?_map,
      List.getElem?_eq_getElem hxg]
    simp only [Option.map_some', Option.getD_some]
    rw [List.getElem?_take_of_lt hy]
    rcases Nat.lt_or_ge y (g[x]).length with hyg | hyg
    · rw [List.getElem?_append_left hyg]
    · rw [List.getElem?_append_right hyg, List.getElem?_replicate,
        if_pos (show y - (g[x]).length < ey by omega),
        List.getElem?_eq_none (by exact hyg)]
      rfl
  · rw [List.getElem?_append_right (by simpa using hxg)]
    simp only [List.length_map]
    rw [List.getElem?_replicate, if_pos (show x - g.length < ex by omega),
      show g[x]? = none from List.getElem?_eq_none hxg]
    simp [List.getElem?_replicate, hy]

/-! ### Claim C5: `send_matrix_reg_byte` burst layout -/

/-- C5: for `0 ≤ matrix < N` and any `(register, value)` pair,
`send_matrix_reg_byte` transmits one burst of exactly `2*N` bytes consisting
of `N - 1 - matrix` no-op pairs, then the `(register, value)` pair, then
`matrix` no-op pairs, so the target pair sits at byte-pair position
`N - 1 - matrix` and every other byte-pair is `(0, 0)`. -/

theorem send_matrix_reg_byte_layout (N : Nat) (m : Nat) (register data : Int)
    (hm : m < N) (p : Nat) (hp : p < N) :
    (send_matrix_reg_byte N (m : Int) register data).length = 2 * N ∧
    ((send_matrix_reg_byte N (m : Int) register data)[2 * p]?.getD 0,
      (send_matrix_reg_byte N (m : Int) register data)[2 * p + 1]?.getD 0) =
      (if p = N - 1 - m then (register, data) else (0, 0)) := by
  have hguard : (0 : Int) ≤ (m : Int) ∧ (m : Int) < (N : Int) := by
    constructor
    · exact Int.natCast_nonneg m
    · exact_mod_cast hm
  unfold send_matrix_reg_byte
  rw [if_pos hguard]
  simp only [Int.toNat_natCast]
  constructor
  · simp [List.length_append, noopRep_length]
    omega
  · rw [burst_getElem?, burst_getElem?]
    have hsum : 2 * (N - 1 - m) + 2 + 2 * m = 2 * N := by omega
    by_cases hpm : p = N - 1 - m
    · rw [if_pos hpm, if_neg (by omega), if_pos (by omega),
        if_neg (by omega), if_neg (by omega), if_pos (by omega)]
      rfl
    · rw [if_neg hpm]
      rcases Nat.lt_or_ge p (N - 1 - m) with hlt | hge
      · rw [if_pos (by omega), if_pos (by omega)]
        rfl
      · rw [if_neg (by omega), if_neg (by omega), if_neg (by omega),
          if_pos (by omega), if_neg (by omega), if_neg (by omega),
          if_neg (by omega), if_pos (by omega)]
        rfl

/-- Witness for C5 at `N = 4`, `matrix = 1`, pair `(3, 99)`: the burst has
length 8 and byte-pair position `4 - 1 - 1 = 2` holds `(3, 99)` while
position 0 holds `(0, 0)`. -/

theorem send_matrix_reg_byte_layout_witness :
    ((send_matrix_reg_byte 4 ((1 : Nat) : Int) 3 99).length = 2 * 4 ∧
      ((send_matrix_reg_byte 4 ((1 : Nat) : Int) 3 99)[2 * 2]?.getD 0,
        (send_matrix_reg_byte 4 ((1 : Nat) : Int) 3 99)[2 * 2 + 1]?.getD 0) =
        (if 2 = 4 - 1 - 1 then ((3 : Int), (99 : Int)) else (0, 0))) ∧
    ((send_matrix_reg_byte 4 ((1 : Nat) : Int) 3 99).length = 2 * 4 ∧
      ((send_matrix_reg_byte 4 ((1 : Nat) : Int) 3 99)[2 * 0]?.getD 0,
        (send_matrix_reg_byte 4 ((1 : Nat) : Int) 3 99)[2 * 0 + 1]?.getD 0) =
        (if 0 = 4 - 1 - 1 then ((3 : Int), (99 : Int)) else (0, 0))) :=
  ⟨send_matrix_reg_byte_layout 4 1 3 99 (by decide) 2 (by decide),
    send_matrix_reg_byte_layout 4 1 3 99 (by decide) 0 (by decide)⟩

/-! ### Claim C8: out-of-range addressing is a silent no-op -/

/-- C8: a matrix index outside `[0, NUM_MATRICES)` makes
`send_matrix_reg_byte` transmit nothing at all (empty burst), and a
coordinate with `g_x` or `g_y` outside the buffer range makes `gfx_set_px`
leave the graphics buffer entirely unchanged; neither function signals any
error (both are total). -/

theorem out_of_range_noop (N W H : Nat) (m : Int) (register data : Int)
    (gx gy : Int) (state : Nat) (b : Buf) (x y : Nat)
    (hm : ¬ (0 ≤ m ∧ m < (N : Int)))
    (hxy : ¬ (0 ≤ gx ∧ gx < ((W : Int) * 8) ∧ 0 ≤ gy ∧ gy < ((H : Int) * 8))) :
    send_matrix_reg_byte N m register data = [] ∧
    gfx_set_px W H gx gy state b x y = b x y := by
  constructor
  · unfold send_matrix_reg_byte
    rw [if_neg hm]
  · unfold gfx_set_px
    rw [if_neg hxy]

/-- Witness for C8 at `N = 9`, `matrix = -1` and `W = H = 3`,
`(g_x, g_y) = (24, 0)`: the burst is empty and the buffer value at `(0, 0)`
is untouched. -/

theorem out_of_range_noop_witness :
    send_matrix_reg_byte 9 (-1) 2 7 = [] ∧
    gfx_set_px 3 3 24 0 GFX_ON (fun _ _ => 5) 0 0 = (fun _ _ => (5 : Int)) 0 0 :=
  out_of_range_noop 9 3 3 (-1) 2 7 24 0 GFX_ON (fun _ _ => 5) 0 0
    (by decide) (by decide)

theorem gfx_render_burst_foldl_aux (H : Nat) (b : Buf) (g_col : Nat) :
    ∀ (n : Nat) (acc : List Int),
      ((List.range n).reverse).foldl
        (fun column_data matrix =>
          column_data ++ [((g_col : Int) + 1), renderChipVal H b g_col matrix]) acc =
      acc ++ renderPairs H b g_col n := by
  intro n
  induction n with
  | zero => intro acc; simp [renderPairs]
  | succ n ih =>
    intro acc
    rw [List.range_succ, List.reverse_append, List.reverse_singleton]
    simp only [List.singleton_append, List.foldl_cons]
    rw [ih]
    simp [renderPairs]

theorem gfx_render_burst_eq (W H : Nat) (b : Buf) (g_col : Nat) :
    gfx_render_burst W H b g_col = renderPairs H b g_col (W * H) := by
  unfold gfx_render_burst
  rw [gfx_render_burst_foldl_aux H b g_col (W * H) []]
  simp

theorem renderPairs_length (H : Nat) (b : Buf) (g_col n : Nat) :
    (renderPairs H b g_col n).length = 2 * n := by
  induction n with
  | zero => rfl
  | succ n ih => simp [renderPairs, ih]; omega

theorem renderPairs_getElem? (H : Nat) (b : Buf) (g_col : Nat) :
    ∀ (n k : Nat), k < n →
      (renderPairs H b g_col n)[2 * k]? = some ((g_col : Int) + 1) ∧
      (renderPairs H b g_col n)[2 * k + 1]? = some (renderChipVal H b g_col (n - 1 - k)) := by
  intro n
  induction n with
  | zero => intro k hk; omega
  | succ n ih =>
    intro k hk
    match k with
    | 0 =>
      rw [show n + 1 - 1 - 0 = n by omega]
      constructor
      · simp [renderPairs]
      · simp [renderPairs]
    | k + 1 =>
      have hk2 : k < n := by omega
      rw [show 2 * (k + 1) = 2 * k + 1 + 1 by omega]
      simp only [renderPairs, List.getElem?_cons_succ]
      rw [show n + 1 - 1 - (k + 1) = n - 1 - k by omega]
      exact ih k hk2

/-! ### Claim C1: what `gfx_render` transmits -/

/-- C1 counterexample: on the 2-chips-wide by 1-chip-high grid with exactly
pixel `(0, 0)` on, the burst for column register 1 is `[1, 0, 1, 128]` —
chip 1's pair first, then chip 0's pair whose byte is `128 = 0x80`: bit 0
(which the claim says is set) is clear, and bit 7 (the most significant
bit) holds the bottom local row instead. -/

theorem gfx_render_burst_c1_counterexample :
    gfx_render_burst 2 1 (fun x y => if x = 0 ∧ y = 0 then (1 : Int) else 0) 0 =
      [1, 0, 1, 128] ∧
    Nat.testBit (Int.toNat 128) 0 = false ∧
    Nat.testBit (Int.toNat 128) 7 = true := by
  refine ⟨by decide, by decide, by decide⟩

/-- C1 (amended): `gfx_render` emits, for each of the 8 column registers,
one burst of `2*NUM_MATRICES` bytes containing one `(g_col+1, byte)` pair
per chip, ordered from the last chip in the chain to the first (byte-pair
position `k` holds chip `NUM_MATRICES - 1 - k`), and each chip's byte packs
that chip's 8 local pixel rows with weight `2^(7 - local_row)` — so the
most significant bit holds the *bottom* local row (local row 0), not the
top one; in the 2x1 example with only pixel `(0,0)` on, chip 0's byte is
`128` (bit 7 set) and chip 1's byte is zero. -/

theorem gfx_render_burst_spec (W H : Nat) (b : Buf) (g_col k : Nat)
    (hk : k < W * H) :
    (gfx_render_burst W H b g_col).length = 2 * (W * H) ∧
    (gfx_render_burst W H b g_col)[2 * k]?.getD 0 = (g_col : Int) + 1 ∧
    (gfx_render_burst W H b g_col)[2 * k + 1]?.getD 0 =
      renderChipVal H b g_col (W * H - 1 - k) ∧
    renderChipVal H b g_col k =
      b (g_col + k / H * 8) (0 + k % H * 8) * 128 +
      b (g_col + k / H * 8) (1 + k % H * 8) * 64 +
      b (g_col + k / H * 8) (2 + k % H * 8) * 32 +
      b (g_col + k / H * 8) (3 + k % H * 8) * 16 +
      b (g_col + k / H * 8) (4 + k % H * 8) * 8 +
      b (g_col + k / H * 8) (5 + k % H * 8) * 4 +
      b (g_col + k / H * 8) (6 + k % H * 8) * 2 +
      b (g_col + k / H * 8) (7 + k % H * 8) * 1 := by
  refine ⟨?_, ?_, ?_, ?_⟩
  · rw [gfx_render_burst_eq, renderPairs_length]
  · rw [gfx_render_burst_eq, (renderPairs_getElem? H b g_col (W * H) k hk).1]
    rfl
  · rw [gfx_render_burst_eq, (renderPairs_getElem? H b g_col (W * H) k hk).2]
    rfl
  · unfold renderChipVal
    rw [show (List.range 8) = [0, 1, 2, 3, 4, 5, 6, 7] by rfl]
    simp only [List.foldl_cons, List.foldl_nil]
    norm_num

/-- Witness for C1's amended theorem at `W = 2`, `H = 1`, pixel `(0,0)` on,
column register 1, byte-pair position `k = 1` (chip `2 - 1 - 1 = 0`). -/

theorem gfx_render_burst_spec_witness :
    (gfx_render_burst 2 1 (fun x y => if x = 0 ∧ y = 0 then (1 : Int) else 0) 0).length =
      2 * (2 * 1) ∧
    (gfx_render_burst 2 1 (fun x y => if x = 0 ∧ y = 0 then (1 : Int) else 0) 0)[2 * 1]?.getD 0 =
      ((0 : Nat) : Int) + 1 ∧
    (gfx_render_burst 2 1 (fun x y => if x = 0 ∧ y = 0 then (1 : Int) else 0) 0)[2 * 1 + 1]?.getD 0 =
      renderChipVal 1 (fun x y => if x = 0 ∧ y = 0 then (1 : Int) else 0) 0 (2 * 1 - 1 - 1) ∧
    renderChipVal 1 (fun x y => if x = 0 ∧ y = 0 then (1 : Int) else 0) 0 1 =
      (fun x y => if x = 0 ∧ y = 0 then (1 : Int) else 0) (0 + 1 / 1 * 8) (0 + 1 % 1 * 8) * 128 +
      (fun x y => if x = 0 ∧ y = 0 then (1 : Int) else 0) (0 + 1 / 1 * 8) (1 + 1 % 1 * 8) * 64 +
      (fun x y => if x = 0 ∧ y = 0 then (1 : Int) else 0) (0 + 1 / 1 * 8) (2 + 1 % 1 * 8) * 32 +
      (fun x y => if x = 0 ∧ y = 0 then (1 : Int) else 0) (0 + 1 / 1 * 8) (3 + 1 % 1 * 8) * 16 +
      (fun x y => if x = 0 ∧ y = 0 then (1 : Int) else 0) (0 + 1 / 1 * 8) (4 + 1 % 1 * 8) * 8 +
      (fun x y => if x = 0 ∧ y = 0 then (1 : Int) else 0) (0 + 1 / 1 * 8) (5 + 1 % 1 * 8) * 4 +
      (fun x y => if x = 0 ∧ y = 0 then (1 : Int) else 0) (0 + 1 / 1 * 8) (6 + 1 % 1 * 8) * 2 +
      (fun x y => if x = 0 ∧ y = 0 then (1 : Int) else 0) (0 + 1 / 1 * 8) (7 + 1 % 1 * 8) * 1 :=
  gfx_render_burst_spec 2 1 (fun x y => if x = 0 ∧ y = 0 then (1 : Int) else 0) 0 1 (by decide)

theorem gfx_scroll_L_eq (W H : Nat) (ng : List (List Int))
    (sx ex sy ey d : Nat) (b : Buf)
    (hex : 1 ≤ ex) (hey : 1 ≤ ey)
    (hbx : sx + ex ≤ 8 * W) (hby : sy + ey ≤ 8 * H) (hd : d ≤ ex) :
    gfx_scroll W H DIR_L ng sx ex sy ey d b =
      scroll_shift_L sx ex sy ey d (normGrid ng ex ey) b := by
  simp only [gfx_scroll, DIR_L, DIR_R, DIR_U, DIR_D]
  norm_num
  rw [if_neg (show ¬ ex < d by omega),
    min_eq_right (show sx ≤ 8 * W - 1 by omega),
    min_eq_right (show ex ≤ 8 * W - sx by omega),
    min_eq_right (show sy ≤ 8 * H - 1 by omega),
    min_eq_right (show ey ≤ 8 * H - sy by omega),
    if_pos (show 8 &&& 4 = 0 by decide)]

theorem gfx_scroll_R_eq (W H : Nat) (ng : List (List Int))
    (sx ex sy ey d : Nat) (b : Buf)
    (hex : 1 ≤ ex) (hey : 1 ≤ ey)
    (hbx : sx + ex ≤ 8 * W) (hby : sy + ey ≤ 8 * H) (hd : d ≤ ex) :
    gfx_scroll W H DIR_R ng sx ex sy ey d b =
      scroll_shift_R sx ex sy ey d (normGrid ng ex ey) b := by
  simp only [gfx_scroll, DIR_R, DIR_L, DIR_U, DIR_D]
  norm_num
  rw [if_neg (show ¬ ex < d by omega),
    min_eq_right (show sx ≤ 8 * W - 1 by omega),
    min_eq_right (show ex ≤ 8 * W - sx by omega),
    min_eq_right (show sy ≤ 8 * H - 1 by omega),
    min_eq_right (show ey ≤ 8 * H - sy by omega)]
  rw [if_pos (show 2 &&& 8 = 0 by decide), if_pos (show 2 &&& 4 = 0 by decide)]

theorem gfx_scroll_LU_eq (W H : Nat) (ng : List (List Int))
    (sx ex sy ey d : Nat) (b : Buf)
    (hex : 1 ≤ ex) (hey : 1 ≤ ey)
    (hbx : sx + ex ≤ 8 * W) (hby : sy + ey ≤ 8 * H) :
    gfx_scroll W H DIR_LU ng sx ex sy ey d b =
      scroll_shift_U sx ex sy ey d (normGrid ng ex ey)
        (scroll_shift_L sx ex sy ey d (normGrid ng ex ey) b) := by
  simp only [gfx_scroll, DIR_LU, DIR_L, DIR_R, DIR_U, DIR_D]
  norm_num
  rw [min_eq_right (show sx ≤ 8 * W - 1 by omega),
    min_eq_right (show ex ≤ 8 * W - sx by omega),
    min_eq_right (show sy ≤ 8 * H - 1 by omega),
    min_eq_right (show ey ≤ 8 * H - sy by omega),
    if_neg (show ¬ 9 &&& 8 = 0 by decide)]

theorem gfx_scroll_RD_eq (W H : Nat) (ng : List (List Int))
    (sx ex sy ey d : Nat) (b : Buf)
    (hex : 1 ≤ ex) (hey : 1 ≤ ey)
    (hbx : sx + ex ≤ 8 * W) (hby : sy + ey ≤ 8 * H) :
    gfx_scroll W H DIR_RD ng sx ex sy ey d b =
      scroll_shift_D sx ex sy ey d (normGrid ng ex ey)
        (scroll_shift_R sx ex sy ey d (normGrid ng ex ey) b) := by
  simp only [gfx_scroll, DIR_RD, DIR_L, DIR_R, DIR_U, DIR_D]
  norm_num
  rw [min_eq_right (show sx ≤ 8 * W - 1 by omega),
    min_eq_right (show ex ≤ 8 * W - sx by omega),
    min_eq_right (show sy ≤ 8 * H - 1 by omega),
    min_eq_right (show ey ≤ 8 * H - sy by omega),
    if_pos (show 6 &&& 8 = 0 by decide),
    if_neg (show ¬ 6 &&& 2 = 0 by decide),
    if_neg (show ¬ 6 &&& 4 = 0 by decide)]

theorem gfx_scroll_no_axis (W H dv : Nat) (ng : List (List Int))
    (sx ex sy ey dist : Nat) (b : Buf)
    (hdv : dv &&& (DIR_U ||| DIR_R ||| DIR_D ||| DIR_L) = 0) :
    gfx_scroll W H dv ng sx ex sy ey dist b = b := by
  have h15 : dv &&& 15 = 0 := by
    have e : (DIR_U ||| DIR_R ||| DIR_D ||| DIR_L) = 15 := by decide
    rw [e] at hdv
    exact hdv
  have hL : dv &&& DIR_L = 0 := by
    have e2 : (dv &&& 15) &&& DIR_L = dv &&& DIR_L := by
      rw [Nat.and_assoc, show (15 : Nat) &&& DIR_L = DIR_L from by decide]
    rw [← e2, h15, Nat.zero_and]
  have hR : dv &&& DIR_R = 0 := by
    have e2 : (dv &&& 15) &&& DIR_R = dv &&& DIR_R := by
      rw [Nat.and_assoc, show (15 : Nat) &&& DIR_R = DIR_R from by decide]
    rw [← e2, h15, Nat.zero_and]
  have hU : dv &&& DIR_U = 0 := by
    have e2 : (dv &&& 15) &&& DIR_U = dv &&& DIR_U := by
      rw [Nat.and_assoc, show (15 : Nat) &&& DIR_U = DIR_U from by decide]
    rw [← e2, h15, Nat.zero_and]
  have hD : dv &&& DIR_D = 0 := by
    have e2 : (dv &&& 15) &&& DIR_D = dv &&& DIR_D := by
      rw [Nat.and_assoc, show (15 : Nat) &&& DIR_D = DIR_D from by decide]
    rw [← e2, h15, Nat.zero_and]
  simp only [gfx_scroll]
  rw [if_neg (show ¬ dv &&& DIR_L ≠ 0 from fun hc => hc hL),
    if_neg (show ¬ dv &&& DIR_R ≠ 0 from fun hc => hc hR),
    if_neg (show ¬ dv &&& DIR_U ≠ 0 from fun hc => hc hU),
    if_neg (show ¬ dv &&& DIR_D ≠ 0 from fun hc => hc hD)]

theorem fillR_cellD (b : Buf) (sx sy ex ey j : Nat) (hj : j < ey) :
    cellD (List.replicate (ex - 1) (List.replicate ey 0) ++
      [(List.range ey).map (fun t => b sx (sy + t))]) (ex - 1) j = b sx (sy + j) := by
  unfold cellD
  simp only [List.getD_eq_getElem?_getD]
  rw [List.getElem?_append_right (by simp), List.length_replicate, Nat.sub_self,
    List.getElem?_cons_zero]
  simp only [Option.getD_some]
  rw [List.getElem?_map, List.getElem?_range hj]
  rfl

/-! ### Claim C2: left-then-right scroll round trip -/

/-- C2: for every rectangle fully inside the buffer and every buffer state,
scrolling the rectangle `DIR_L` by distance 1 (with any fill `ngL`) and then
`DIR_R` by distance 1, using as fill the column that the left shift
discarded (captured from `b` before the first shift, and supplied at fill
index `extent_x - 1`, the index a distance-1 right shift reveals — the
"indexed consistently with the direction of travel" convention), restores
every pixel, inside and outside the rectangle, to its original value; and
the left shift on its own leaves every pixel outside the rectangle
unchanged. -/

theorem gfx_scroll_roundtrip (W H : Nat) (b : Buf) (ngL : List (List Int))
    (sx ex sy ey x y : Nat)
    (hex : 1 ≤ ex) (hey : 1 ≤ ey)
    (hbx : sx + ex ≤ 8 * W) (hby : sy + ey ≤ 8 * H) :
    gfx_scroll W H DIR_R
        (List.replicate (ex - 1) (List.replicate ey 0) ++
          [(List.range ey).map (fun t => b sx (sy + t))])
        sx ex sy ey 1
        (gfx_scroll W H DIR_L ngL sx ex sy ey 1 b) x y = b x y ∧
    (¬ (sx ≤ x ∧ x < sx + ex ∧ sy ≤ y ∧ y < sy + ey) →
      gfx_scroll W H DIR_L ngL sx ex sy ey 1 b x y = b x y) := by
  constructor
  · rw [gfx_scroll_R_eq W H _ sx ex sy ey 1 _ hex hey hbx hby hex,
      gfx_scroll_L_eq W H ngL sx ex sy ey 1 b hex hey hbx hby hex]
    simp only [scroll_shift_R, scroll_shift_L]
    by_cases hin : sx ≤ x ∧ x < sx + ex ∧ sy ≤ y ∧ y < sy + ey
    · rw [if_pos hin]
      by_cases hx1 : x < sx + 1
      · rw [if_pos hx1,
          show (x + ex) - (sx + 1) = ex - 1 by omega,
          normGrid_cellD _ ex ey _ _ (by omega) (by omega),
          fillR_cellD b sx sy ex ey (y - sy) (by omega),
          show x = sx by omega,
          Nat.add_sub_cancel' (show sy ≤ y by omega)]
      · rw [if_neg hx1,
          if_pos (show sx ≤ x - 1 ∧ x - 1 < sx + ex ∧ sy ≤ y ∧ y < sy + ey by omega),
          if_pos (show (x - 1) + 1 < sx + ex by omega),
          show x - 1 + 1 = x by omega]
    · rw [if_neg hin, if_neg hin]
  · intro hout
    rw [gfx_scroll_L_eq W H ngL sx ex sy ey 1 b hex hey hbx hby hex]
    simp only [scroll_shift_L]
    rw [if_neg hout]

/-- Witness for C2 on a 1x1 grid, rectangle `sx=0, ex=2, sy=0, ey=1`, buffer
`b x y = 3` at `(0,0)` and `7` elsewhere, left-shift fill `[[9],[9]]`:
checked at the in-rectangle pixel `(1,0)` and the outside pixel `(5,5)`. -/

theorem gfx_scroll_roundtrip_witness :
    (1 ≤ 2 ∧ 1 ≤ 1 ∧ 0 + 2 ≤ 8 * 1 ∧ 0 + 1 ≤ 8 * 1) ∧
    gfx_scroll 1 1 DIR_R
        (List.replicate (2 - 1) (List.replicate 1 0) ++
          [(List.range 1).map
            (fun t => (fun x y => if x = 0 ∧ y = 0 then (3 : Int) else 7) 0 (0 + t))])
        0 2 0 1 1
        (gfx_scroll 1 1 DIR_L [[9], [9]] 0 2 0 1 1
          (fun x y => if x = 0 ∧ y = 0 then (3 : Int) else 7)) 1 0 =
      (fun x y => if x = 0 ∧ y = 0 then (3 : Int) else 7) 1 0 ∧
    gfx_scroll 1 1 DIR_R
        (List.replicate (2 - 1) (List.replicate 1 0) ++
          [(List.range 1).map
            (fun t => (fun x y => if x = 0 ∧ y = 0 then (3 : Int) else 7) 0 (0 + t))])
        0 2 0 1 1
        (gfx_scroll 1 1 DIR_L [[9], [9]] 0 2 0 1 1
          (fun x y => if x = 0 ∧ y = 0 then (3 : Int) else 7)) 5 5 =
      (fun x y => if x = 0 ∧ y = 0 then (3 : Int) else 7) 5 5 :=
  ⟨⟨by decide, by decide, by decide, by decide⟩,
    (gfx_scroll_roundtrip 1 1 (fun x y => if x = 0 ∧ y = 0 then (3 : Int) else 7)
      [[9], [9]] 0 2 0 1 1 0 (by decide) (by decide) (by decide) (by decide)).1,
    (gfx_scroll_roundtrip 1 1 (fun x y => if x = 0 ∧ y = 0 then (3 : Int) else 7)
      [[9], [9]] 0 2 0 1 5 5 (by decide) (by decide) (by decide) (by decide)).1⟩

/-! ### Claim C10: bitwise direction dispatch of `gfx_scroll` -/

/-- C10: `gfx_scroll` tests its direction bitwise per axis: `DIR_LU = DIR_L
| DIR_U` first applies the horizontal `DIR_L` shift and then the vertical
`DIR_U` shift to the same rectangle (same distance and fill), `DIR_RD =
DIR_R | DIR_D` likewise applies `DIR_R` then `DIR_D` (the closed forms
below are the two shifts composed in that order), and a direction value
with no axis bit set leaves the buffer entirely unchanged. -/

theorem gfx_scroll_diagonal (W H : Nat) (ng : List (List Int)) (b : Buf)
    (sx ex sy ey d x y dv : Nat)
    (hex : 1 ≤ ex) (hey : 1 ≤ ey)
    (hbx : sx + ex ≤ 8 * W) (hby : sy + ey ≤ 8 * H)
    (hdx : d ≤ ex) (hdy : d ≤ ey)
    (hdv : dv &&& (DIR_U ||| DIR_R ||| DIR_D ||| DIR_L) = 0) :
    (DIR_LU = DIR_L ||| DIR_U ∧ DIR_RD = DIR_R ||| DIR_D) ∧
    gfx_scroll W H DIR_LU ng sx ex sy ey d b x y =
      (if sx ≤ x ∧ x < sx + ex ∧ sy ≤ y ∧ y < sy + ey then
        if y < sy + d then cellD (normGrid ng ex ey) (x - sx) ((y + ey) - (sy + d))
        else if x + d < sx + ex then b (x + d) (y - d)
        else cellD (normGrid ng ex ey) ((x + d) - (sx + ex)) ((y - d) - sy)
      else b x y) ∧
    gfx_scroll W H DIR_RD ng sx ex sy ey d b x y =
      (if sx ≤ x ∧ x < sx + ex ∧ sy ≤ y ∧ y < sy + ey then
        if y + d < sy + ey then
          if x < sx + d then
            cellD (normGrid ng ex ey) ((x + ex) - (sx + d)) ((y + d) - sy)
          else b (x - d) (y + d)
        else cellD (normGrid ng ex ey) (x - sx) ((y + d) - (sy + ey))
      else b x y) ∧
    gfx_scroll W H dv ng sx ex sy ey d b x y = b x y := by
  refine ⟨⟨by decide, by decide⟩, ?_, ?_, ?_⟩
  · rw [gfx_scroll_LU_eq W H ng sx ex sy ey d b hex hey hbx hby]
    simp only [scroll_shift_U, scroll_shift_L]
    by_cases hin : sx ≤ x ∧ x < sx + ex ∧ sy ≤ y ∧ y < sy + ey
    · rw [if_pos hin, if_pos hin]
      by_cases hyd : y < sy + d
      · rw [if_pos hyd, if_pos hyd]
      · rw [if_neg hyd, if_neg hyd,
          if_pos (show sx ≤ x ∧ x < sx + ex ∧ sy ≤ y - d ∧ y - d < sy + ey by omega)]
    · rw [if_neg hin, if_neg hin, if_neg hin]
  · rw [gfx_scroll_RD_eq W H ng sx ex sy ey d b hex hey hbx hby]
    simp only [scroll_shift_D, scroll_shift_R]
    by_cases hin : sx ≤ x ∧ x < sx + ex ∧ sy ≤ y ∧ y < sy + ey
    · rw [if_pos hin, if_pos hin]
      by_cases hyd : y + d < sy + ey
      · rw [if_pos hyd, if_pos hyd,
          if_pos (show sx ≤ x ∧ x < sx + ex ∧ sy ≤ y + d ∧ y + d < sy + ey by omega)]
      · rw [if_neg hyd, if_neg hyd]
    · rw [if_neg hin, if_neg hin, if_neg hin]
  · rw [gfx_scroll_no_axis W H dv ng sx ex sy ey d b hdv]

/-- Witness for C10 on a 1x1 grid, rectangle `0 ≤ x < 2`, `0 ≤ y < 2`,
distance 1, fill `[[5, 6], [7, 8]]`, buffer `b x y = x + 2*y`, checked at
pixel `(0, 1)` with no-axis direction value `16` (`DISSOLVE`). -/

theorem gfx_scroll_diagonal_witness :
    (1 ≤ 2 ∧ 0 + 2 ≤ 8 * 1 ∧ 1 ≤ 2 ∧ 16 &&& (DIR_U ||| DIR_R ||| DIR_D ||| DIR_L) = 0) ∧
    (DIR_LU = DIR_L ||| DIR_U ∧ DIR_RD = DIR_R ||| DIR_D) ∧
    gfx_scroll 1 1 DIR_LU [[5, 6], [7, 8]] 0 2 0 2 1
        (fun x y => ((x : Int) + 2 * (y : Int))) 0 1 =
      (if 0 ≤ 0 ∧ 0 < 0 + 2 ∧ 0 ≤ 1 ∧ 1 < 0 + 2 then
        if 1 < 0 + 1 then
          cellD (normGrid [[5, 6], [7, 8]] 2 2) (0 - 0) ((1 + 2) - (0 + 1))
        else if 0 + 1 < 0 + 2 then
          (fun x y => ((x : Int) + 2 * (y : Int))) (0 + 1) (1 - 1)
        else cellD (normGrid [[5, 6], [7, 8]] 2 2) ((0 + 1) - (0 + 2)) ((1 - 1) - 0)
      else (fun x y => ((x : Int) + 2 * (y : Int))) 0 1) ∧
    gfx_scroll 1 1 DIR_RD [[5, 6], [7, 8]] 0 2 0 2 1
        (fun x y => ((x : Int) + 2 * (y : Int))) 0 1 =
      (if 0 ≤ 0 ∧ 0 < 0 + 2 ∧ 0 ≤ 1 ∧ 1 < 0 + 2 then
        if 1 + 1 < 0 + 2 then
          if 0 < 0 + 1 then
            cellD (normGrid [[5, 6], [7, 8]] 2 2) ((0 + 2) - (0 + 1)) ((1 + 1) - 0)
          else (fun x y => ((x : Int) + 2 * (y : Int))) (0 - 1) (1 + 1)
        else cellD (normGrid [[5, 6], [7, 8]] 2 2) (0 - 0) ((1 + 1) - (0 + 2))
      else (fun x y => ((x : Int) + 2 * (y : Int))) 0 1) ∧
    gfx_scroll 1 1 16 [[5, 6], [7, 8]] 0 2 0 2 1
        (fun x y => ((x : Int) + 2 * (y : Int))) 0 1 =
      (fun x y => ((x : Int) + 2 * (y : Int))) 0 1 :=
  ⟨⟨by decide, by decide, by decide, by decide⟩,
    gfx_scroll_diagonal 1 1 [[5, 6], [7, 8]]
      (fun x y => ((x : Int) + 2 * (y : Int))) 0 2 0 2 1 0 1 16
      (by decide) (by decide) (by decide) (by decide) (by decide) (by decide) (by decide)⟩

theorem gfx_read_buffer_cellD (W H : Nat) (b : Buf) (x y : Nat)
    (hx : x < 8 * W) (hy : y < 8 * H) :
    cellD (gfx_read_buffer W H b) x y = b x y := by
  unfold cellD gfx_read_buffer
  simp only [List.getD_eq_getElem?_getD]
  rw [List.getElem?_map, List.getElem?_range hx]
  simp only [Option.map_some', Option.getD_some]
  rw [List.getElem?_map, List.getElem?_range hy]
  rfl

theorem towards_step_L (W H : Nat) (col : List Int) (b2 : Buf) (x y : Nat)
    (hW : 1 ≤ W) (hH : 1 ≤ H) (hx : x < 8 * W) (hy : y < 8 * H) :
    gfx_scroll W H DIR_L [col] 0 (8 * W) 0 (8 * H) 1 b2 x y =
      if x + 1 < 8 * W then b2 (x + 1) y else col.getD y 0 := by
  rw [gfx_scroll_L_eq W H [col] 0 (8 * W) 0 (8 * H) 1 b2
    (by omega) (by omega) (by omega) (by omega) (by omega)]
  simp only [scroll_shift_L]
  rw [if_pos (show 0 ≤ x ∧ x < 0 + 8 * W ∧ 0 ≤ y ∧ y < 0 + 8 * H by omega)]
  by_cases h1 : x + 1 < 8 * W
  · rw [if_pos (show x + 1 < 0 + 8 * W by omega), if_pos h1]
  · rw [if_neg (show ¬ x + 1 < 0 + 8 * W by omega), if_neg h1,
      show (x + 1) - (0 + 8 * W) = 0 by omega,
      normGrid_cellD [col] (8 * W) (8 * H) 0 (y - 0) (by omega) (by omega)]
    rfl

theorem towards_pass_L_aux (W H : Nat) (g : List (List Int))
    (hW : 1 ≤ W) (hH : 1 ≤ H) :
    ∀ (n : Nat), n ≤ 8 * W → ∀ (bb : Buf) (x y : Nat), x < 8 * W → y < 8 * H →
      ((List.range n).foldl
        (fun bb l_col =>
          gfx_scroll W H DIR_L [g.getD l_col []] 0 (8 * W) 0 (8 * H) 1 bb) bb) x y =
      if x + n < 8 * W then bb (x + n) y else (g.getD ((x + n) - 8 * W) []).getD y 0 := by
  intro n
  induction n with
  | zero =>
    intro _ bb x y hx hy
    rw [if_pos (by omega)]
    simp
  | succ n ih =>
    intro hn bb x y hx hy
    rw [List.range_succ, List.foldl_append]
    simp only [List.foldl_cons, List.foldl_nil]
    rw [towards_step_L W H (g.getD n []) _ x y hW hH hx hy]
    by_cases h1 : x + 1 < 8 * W
    · rw [if_pos h1, ih (by omega) bb (x + 1) y h1 hy]
      by_cases h2 : x + 1 + n < 8 * W
      · rw [if_pos h2, if_pos (by omega), show x + 1 + n = x + (n + 1) by omega]
      · rw [if_neg h2, if_neg (by omega),
          show (x + 1 + n) - 8 * W = (x + (n + 1)) - 8 * W by omega]
    · rw [if_neg h1, if_neg (show ¬ x + (n + 1) < 8 * W by omega),
        show (x + (n + 1)) - 8 * W = n by omega]

/-! ### Claim C7: `gfx_scroll_towards` with `DIR_L`, one pass -/

/-- C7: with direction `DIR_L` the pass runs exactly `8*MATRIX_WIDTH`
steps (one per `l_col in range(8*MATRIX_WIDTH)`); each step shifts the
whole buffer left by one pixel and reveals one column of `new_graphic` at
the right edge (`x = 8*MATRIX_WIDTH - 1`); after the single pass of
`repeats = 1` the buffer equals the padded/truncated `new_graphic`; and
with `repeats = 2` the pre-call buffer contents, snapshotted as
`old_graphic`, are revealed by the second pass, so the buffer returns to
its original state (the old/new ping-pong). -/

theorem gfx_scroll_towards_L_spec (W H : Nat) (ng : List (List Int))
    (b b2 : Buf) (k x y : Nat) (hW : 1 ≤ W) (hH : 1 ≤ H)
    (hx : x < 8 * W) (hy : y < 8 * H) (hk : k < 8 * W) :
    (List.range (8 * W)).length = 8 * W ∧
    gfx_scroll W H DIR_L [ng.getD k []] 0 (8 * W) 0 (8 * H) 1 b2 x y =
      (if x + 1 < 8 * W then b2 (x + 1) y else (ng.getD k []).getD y 0) ∧
    gfx_scroll_towards W H ng 1 DIR_L b x y = (ng.getD x []).getD y 0 ∧
    gfx_scroll_towards W H ng 2 DIR_L b x y = b x y := by
  refine ⟨List.length_range _, towards_step_L W H _ b2 x y hW hH hx hy, ?_, ?_⟩
  · simp only [gfx_scroll_towards, towardsGo, scroll_towards_pass]
    rw [if_pos (show DIR_L &&& DIR_L ≠ 0 by decide),
      towards_pass_L_aux W H (normGrid ng (W * 8) (8 * H)) hW hH (8 * W) (by omega) b x y hx hy,
      if_neg (show ¬ x + 8 * W < 8 * W by omega),
      show (x + 8 * W) - 8 * W = x by omega]
    have h2 := normGrid_cellD ng (W * 8) (8 * H) x y (by omega) (by omega)
    unfold cellD at h2
    exact h2
  · simp only [gfx_scroll_towards, towardsGo, scroll_towards_pass]
    rw [if_pos (show DIR_L &&& DIR_L ≠ 0 by decide),
      towards_pass_L_aux W H (gfx_read_buffer W H b) hW hH (8 * W) (by omega) _ x y hx hy,
      if_neg (show ¬ x + 8 * W < 8 * W by omega),
      show (x + 8 * W) - 8 * W = x by omega]
    have h2 := gfx_read_buffer_cellD W H b x y hx hy
    unfold cellD at h2
    exact h2

/-- Witness for C7 on a 1x1 grid (8 steps per pass), revealing the 8-column
graphic `[[1],…,[8]]` into the buffer `b x y = x`, checked at the right-edge
pixel `(7, 0)` with per-step column `k = 3` and step input `b2 = 100`. -/

theorem gfx_scroll_towards_L_spec_witness :
    (List.range (8 * 1)).length = 8 * 1 ∧
    gfx_scroll 1 1 DIR_L
        [([[1], [2], [3], [4], [5], [6], [7], [8]] : List (List Int)).getD 3 []]
        0 (8 * 1) 0 (8 * 1) 1 (fun _ _ => (100 : Int)) 7 0 =
      (if 7 + 1 < 8 * 1 then (fun _ _ => (100 : Int)) (7 + 1) 0
        else (([[1], [2], [3], [4], [5], [6], [7], [8]] : List (List Int)).getD 3 []).getD 0 0) ∧
    gfx_scroll_towards 1 1 [[1], [2], [3], [4], [5], [6], [7], [8]] 1 DIR_L
        (fun x _ => ((x : Nat) : Int)) 7 0 =
      (([[1], [2], [3], [4], [5], [6], [7], [8]] : List (List Int)).getD 7 []).getD 0 0 ∧
    gfx_scroll_towards 1 1 [[1], [2], [3], [4], [5], [6], [7], [8]] 2 DIR_L
        (fun x _ => ((x : Nat) : Int)) 7 0 =
      (fun x _ => ((x : Nat) : Int)) 7 0 :=
  gfx_scroll_towards_L_spec 1 1 [[1], [2], [3], [4], [5], [6], [7], [8]]
    (fun x _ => ((x : Nat) : Int)) (fun _ _ => (100 : Int)) 3 7 0
    (by decide) (by decide) (by decide) (by decide) (by decide)

theorem wipe_stepRU_closed (W H : Nat) (g : List (List Int)) (it : Nat)
    (b : Buf) (x y : Nat) :
    gfx_effect_wipe_stepRU W H g it b x y =
      if x + y = it ∧ x < W * 8 ∧ y < H * 8 then cellD g x y else b x y := by
  unfold gfx_effect_wipe_stepRU
  by_cases hc : x + y = it ∧ x < W * 8 ∧ y < H * 8
  · rw [if_pos (by omega), if_pos hc, show it - y = x by omega]
  · rw [if_neg (by omega), if_neg hc]

theorem wipe_RU_aux (W H : Nat) (g : List (List Int)) (x y : Nat)
    (hx : x < W * 8) (hy : y < H * 8) :
    ∀ (n : Nat) (b : Buf),
      ((List.range n).foldl (fun bb it => gfx_effect_wipe_stepRU W H g it bb) b) x y =
        if x + y < n then cellD g x y else b x y := by
  intro n
  induction n with
  | zero =>
    intro b
    rw [if_neg (by omega)]
    simp
  | succ n ih =>
    intro b
    rw [List.range_succ, List.foldl_append]
    simp only [List.foldl_cons, List.foldl_nil]
    rw [wipe_stepRU_closed]
    by_cases hn : x + y = n
    · rw [if_pos ⟨hn, hx, hy⟩, if_pos (by omega)]
    · rw [if_neg (by simp [hn]), ih b]
      by_cases hlt : x + y < n
      · rw [if_pos hlt, if_pos (by omega)]
      · rw [if_neg hlt, if_neg (by omega)]

/-! ### Claim C4: diagonal wipe on the 3x3 grid -/

/-- C4: on the 3x3-chip (24x24) buffer the `DIR_RU` wipe performs exactly
`MATRIX_WIDTH*8 + MATRIX_HEIGHT*8 - 1 = 47` iterations; iteration `it`
overwrites exactly the pixels of the anti-diagonal `x + y = it` with the
corresponding (normalised) `new_graphic` pixels and leaves every other
pixel alone — so each buffer pixel `(x, y)` (with `x + y < 47`) is
overwritten in exactly the one step `it = x + y` — and after the last step
the buffer equals `new_graphic`. -/

theorem gfx_effect_wipe_RU_spec (ng : List (List Int)) (b b2 : Buf)
    (it x y : Nat) (hx : x < 24) (hy : y < 24) :
    (List.range (3 * 8 + 3 * 8 - 1)).length = 47 ∧
    x + y < 47 ∧
    (gfx_effect_wipe_stepRU 3 3 (normGrid ng (3 * 8) (8 * 3)) it b2 x y =
      if x + y = it ∧ x < 3 * 8 ∧ y < 3 * 8 then
        cellD (normGrid ng (3 * 8) (8 * 3)) x y
      else b2 x y) ∧
    gfx_effect_wipe_RU 3 3 ng b x y = cellD ng x y := by
  refine ⟨by decide, by omega, wipe_stepRU_closed 3 3 _ it b2 x y, ?_⟩
  show (List.range (3 * 8 + 3 * 8 - 1)).foldl
      (fun bb it => gfx_effect_wipe_stepRU 3 3 (normGrid ng (3 * 8) (8 * 3)) it bb) b x y = _
  rw [wipe_RU_aux 3 3 (normGrid ng (3 * 8) (8 * 3)) x y (by omega) (by omega),
    if_pos (by omega), normGrid_cellD ng (3 * 8) (8 * 3) x y (by omega) (by omega)]

/-- Witness for C4 at `new_graphic` with value `x*100 + y` in cell `(x,y)`
restricted to a 2x2 corner (padded with zeros elsewhere), buffer 0, step
input buffer 50, iteration `it = 1`, pixel `(1, 0)`. -/

theorem gfx_effect_wipe_RU_spec_witness :
    (List.range (3 * 8 + 3 * 8 - 1)).length = 47 ∧
    1 + 0 < 47 ∧
    (gfx_effect_wipe_stepRU 3 3 (normGrid [[1, 2], [3, 4]] (3 * 8) (8 * 3)) 1
        (fun _ _ => (50 : Int)) 1 0 =
      if 1 + 0 = 1 ∧ 1 < 3 * 8 ∧ 0 < 3 * 8 then
        cellD (normGrid [[1, 2], [3, 4]] (3 * 8) (8 * 3)) 1 0
      else (fun _ _ => (50 : Int)) 1 0) ∧
    gfx_effect_wipe_RU 3 3 [[1, 2], [3, 4]] (fun _ _ => (0 : Int)) 1 0 =
      cellD [[1, 2], [3, 4]] 1 0 :=
  gfx_effect_wipe_RU_spec [[1, 2], [3, 4]] (fun _ _ => (0 : Int))
    (fun _ _ => (50 : Int)) 1 1 0 (by decide) (by decide)

theorem pyIdx_nonneg (L : Nat) (i : Int) (h : 0 ≤ i) : pyIdx L i = i.toNat := by
  unfold pyIdx
  rw [if_neg (by omega)]

/-! ### Claim C9: sprite blitting and clipping -/

/-- C9 counterexample: on the 3x3 grid, blitting the 1x1 sprite `[[5]]` at
offset `(start_x, start_y) = (-1, 0)` with `GFX_ON` over the all-zero
buffer does *not* silently skip the out-of-buffer cell: Python's negative
indexing wraps it around to column `23`, so the buffer pixel `(23, 0)` — a
position that is not the cell's own offset position — becomes `5`. -/

theorem gfx_sprite_array_c9_counterexample :
    gfx_sprite_array 3 3 [[5]] (-1) 0 GFX_ON (fun _ _ => (0 : Int)) 23 0 = 5 ∧
    (fun _ _ => (0 : Int)) 23 0 = 0 :=
  ⟨by decide, rfl⟩

theorem sprite_cell_write_eq (W H : Nat) (sprite : List (List Int)) (sx sy : Int)
    (state : Nat) (c r : Nat) (hsx : 0 ≤ sx) (hsy : 0 ≤ sy) (b2 : Buf) (x y : Nat) :
    sprite_cell_write W H sprite sx sy state c r b2 x y =
      if x = c + sx.toNat ∧ x < W * 8 ∧ y = r + sy.toNat ∧ y < H * 8 then
        sprite_write_val state (cellD sprite c r) (b2 x y)
      else b2 x y := by
  unfold sprite_cell_write
  by_cases hG : ((c : Int) + sx < ((W : Int) * 8)) ∧ ((r : Int) + sy < ((H : Int) * 8))
  · rw [if_pos hG]
    simp only [pyIdx_nonneg (W * 8) ((c : Int) + sx) (by omega),
      pyIdx_nonneg (H * 8) ((r : Int) + sy) (by omega)]
    by_cases hhit : x = ((c : Int) + sx).toNat ∧ y = ((r : Int) + sy).toNat
    · rw [if_pos hhit, if_pos (by omega)]
      obtain ⟨h1, h2⟩ := hhit
      rw [← h1, ← h2]
    · rw [if_neg hhit, if_neg (by omega)]
  · rw [if_neg hG, if_neg (by omega)]

theorem sprite_col_write_aux (W H : Nat) (sprite : List (List Int))
    (sx sy : Int) (state : Nat) (c : Nat) (hsx : 0 ≤ sx) (hsy : 0 ≤ sy) :
    ∀ (m : Nat) (bb : Buf) (x y : Nat),
      ((List.range m).foldl
        (fun b2 l_row => sprite_cell_write W H sprite sx sy state c l_row b2) bb) x y =
      if x = c + sx.toNat ∧ x < W * 8 ∧ sy.toNat ≤ y ∧ y - sy.toNat < m ∧ y < H * 8 then
        sprite_write_val state (cellD sprite c (y - sy.toNat)) (bb x y)
      else bb x y := by
  intro m
  induction m with
  | zero =>
    intro bb x y
    rw [if_neg (by omega)]
    simp
  | succ m ih =>
    intro bb x y
    rw [List.range_succ, List.foldl_append]
    simp only [List.foldl_cons, List.foldl_nil]
    rw [sprite_cell_write_eq W H sprite sx sy state c m hsx hsy _ x y]
    by_cases hhit : x = c + sx.toNat ∧ x < W * 8 ∧ y = m + sy.toNat ∧ y < H * 8
    · rw [if_pos hhit, ih bb x y, if_neg (by omega), if_pos (by omega),
        show y - sy.toNat = m by omega]
    · rw [if_neg hhit, ih bb x y]
      by_cases hcov : x = c + sx.toNat ∧ x < W * 8 ∧ sy.toNat ≤ y ∧
          y - sy.toNat < m ∧ y < H * 8
      · rw [if_pos hcov, if_pos (by omega)]
      · rw [if_neg hcov, if_neg (by omega)]

theorem sprite_col_write_closed (W H : Nat) (sprite : List (List Int))
    (sx sy : Int) (state : Nat) (c : Nat) (hsx : 0 ≤ sx) (hsy : 0 ≤ sy)
    (b1 : Buf) (x y : Nat) :
    sprite_col_write W H sprite sx sy state c b1 x y =
      if x = c + sx.toNat ∧ x < W * 8 ∧ sy.toNat ≤ y ∧
          y - sy.toNat < (sprite.getD c []).length ∧ y < H * 8 then
        sprite_write_val state (cellD sprite c (y - sy.toNat)) (b1 x y)
      else b1 x y := by
  unfold sprite_col_write
  exact sprite_col_write_aux W H sprite sx sy state c hsx hsy
    ((sprite.getD c []).length) b1 x y

theorem gfx_sprite_array_aux (W H : Nat) (sprite : List (List Int))
    (sx sy : Int) (state : Nat) (hsx : 0 ≤ sx) (hsy : 0 ≤ sy) :
    ∀ (n : Nat) (bb : Buf) (x y : Nat),
      ((List.range n).foldl
        (fun b1 l_col => sprite_col_write W H sprite sx sy state l_col b1) bb) x y =
      if sx.toNat ≤ x ∧ x - sx.toNat < n ∧ x < W * 8 ∧ sy.toNat ≤ y ∧
          y - sy.toNat < (sprite.getD (x - sx.toNat) []).length ∧ y < H * 8 then
        sprite_write_val state (cellD sprite (x - sx.toNat) (y - sy.toNat)) (bb x y)
      else bb x y := by
  intro n
  induction n with
  | zero =>
    intro bb x y
    rw [if_neg (by omega)]
    simp
  | succ n ih =>
    intro bb x y
    rw [List.range_succ, List.foldl_append]
    simp only [List.foldl_cons, List.foldl_nil]
    rw [sprite_col_write_closed W H sprite sx sy state n hsx hsy _ x y]
    by_cases hhit : x = n + sx.toNat ∧ x < W * 8 ∧ sy.toNat ≤ y ∧
        y - sy.toNat < (sprite.getD n []).length ∧ y < H * 8
    · rw [if_pos hhit, ih bb x y, if_neg (by omega)]
      have hxn : x - sx.toNat = n := by omega
      rw [if_pos (by rw [hxn]; omega), hxn]
    · rw [if_neg hhit, ih bb x y]
      by_cases hcov : sx.toNat ≤ x ∧ x - sx.toNat < n ∧ x < W * 8 ∧ sy.toNat ≤ y ∧
          y - sy.toNat < (sprite.getD (x - sx.toNat) []).length ∧ y < H * 8
      · rw [if_pos hcov, if_pos (by omega)]
      · rw [if_neg hcov]
        by_cases hcov2 : sx.toNat ≤ x ∧ x - sx.toNat < n + 1 ∧ x < W * 8 ∧ sy.toNat ≤ y ∧
            y - sy.toNat < (sprite.getD (x - sx.toNat) []).length ∧ y < H * 8
        · exfalso
          have hxn : x - sx.toNat = n := by omega
          rw [hxn] at hcov2
          exact hhit ⟨by omega, hcov2.2.2.1, hcov2.2.2.2.1, hcov2.2.2.2.2.1,
            hcov2.2.2.2.2.2⟩
        · rw [if_neg hcov2]

/-- C9 (amended): for every sprite and every *non-negative* offset
`(start_x, start_y)`, `gfx_sprite_array` writes each sprite cell only to
the buffer pixel at its own offset position `(start_x + column, start_y +
row)` when that position lies inside the buffer, silently clips every cell
whose position falls beyond the right or top buffer edge, and leaves every
other buffer pixel untouched.  (As the counterexample shows, the claim's
inclusion of negative offsets fails: a cell at a negative position is not
clipped but wrapped to the opposite edge by Python's negative indexing, so
the clipping contract only holds for offsets `≥ 0`.) -/

theorem gfx_sprite_array_spec (W H : Nat) (sprite : List (List Int))
    (sx sy : Int) (state : Nat) (b : Buf) (x y : Nat)
    (hsx : 0 ≤ sx) (hsy : 0 ≤ sy) :
    gfx_sprite_array W H sprite sx sy state b x y =
      if sx.toNat ≤ x ∧ x - sx.toNat < sprite.length ∧ x < W * 8 ∧ sy.toNat ≤ y ∧
          y - sy.toNat < (sprite.getD (x - sx.toNat) []).length ∧ y < H * 8 then
        sprite_write_val state (cellD sprite (x - sx.toNat) (y - sy.toNat)) (b x y)
      else b x y := by
  unfold gfx_sprite_array
  exact gfx_sprite_array_aux W H sprite sx sy state hsx hsy sprite.length b x y

/-- Witness for C9's amended theorem: 2x2 sprite `[[7,8],[9,10]]` at offset
`(1, 0)` with `GFX_INVERT` over the constant-3 buffer, read at pixel
`(1, 1)` (covered by sprite cell `(0, 1)`). -/

theorem gfx_sprite_array_spec_witness :
    (0 ≤ (1 : Int) ∧ 0 ≤ (0 : Int)) ∧
    gfx_sprite_array 1 1 [[7, 8], [9, 10]] 1 0 GFX_INVERT (fun _ _ => (3 : Int)) 1 1 =
      if (1 : Int).toNat ≤ 1 ∧ 1 - (1 : Int).toNat < ([[7, 8], [9, 10]] : List (List Int)).length ∧
          1 < 1 * 8 ∧ (0 : Int).toNat ≤ 1 ∧
          1 - (0 : Int).toNat <
            (([[7, 8], [9, 10]] : List (List Int)).getD (1 - (1 : Int).toNat) []).length ∧
          1 < 1 * 8 then
        sprite_write_val GFX_INVERT
          (cellD [[7, 8], [9, 10]] (1 - (1 : Int).toNat) (1 - (0 : Int).toNat))
          ((fun _ _ => (3 : Int)) 1 1)
      else (fun _ _ => (3 : Int)) 1 1 :=
  ⟨⟨by decide, by decide⟩,
    gfx_sprite_array_spec 1 1 [[7, 8], [9, 10]] 1 0 GFX_INVERT
      (fun _ _ => (3 : Int)) 1 1 (by decide) (by decide)⟩

theorem lor_eq_add_of_lt (a q k : Nat) (ha : a < 2 ^ k) :
    a ||| (q <<< k) = 2 ^ k * q + a := by
  apply Nat.eq_of_testBit_eq
  intro j
  rw [Nat.testBit_lor, Nat.testBit_shiftLeft, Nat.testBit_mul_pow_two_add q ha j]
  by_cases hj : j < k
  · rw [if_pos hj]
    simp [show ¬ j ≥ k by omega]
  · rw [if_neg hj]
    have h1 : a.testBit j = false :=
      Nat.testBit_lt_two_pow (lt_of_lt_of_le ha (Nat.pow_le_pow_right (by omega) (by omega)))
    simp [h1, show j ≥ k by omega]

theorem blend_mod_256 (c n p : Nat) (hc : c < 256) (hn : n < 256) (hp : p < 8) :
    ((c >>> p) + (n <<< (8 - p))) % 256 = (c >>> p) ||| ((n <<< (8 - p)) % 256) := by
  have hpow : 2 ^ p * 2 ^ (8 - p) = 256 := by
    rw [← pow_add, show p + (8 - p) = 8 by omega]
    norm_num
  have ha : c >>> p < 2 ^ (8 - p) := by
    rw [Nat.shiftRight_eq_div_pow]
    have hc2 : c < 2 ^ p * 2 ^ (8 - p) := by
      rw [hpow]
      exact hc
    exact Nat.div_lt_of_lt_mul hc2
  have hmod : (n <<< (8 - p)) % 256 = (n % 2 ^ p) * 2 ^ (8 - p) := by
    rw [Nat.shiftLeft_eq, ← hpow, Nat.mul_mod_mul_right]
  rw [hmod,
    show (n % 2 ^ p) * 2 ^ (8 - p) = (n % 2 ^ p) <<< (8 - p) from (Nat.shiftLeft_eq _ _).symm,
    lor_eq_add_of_lt (c >>> p) (n % 2 ^ p) (8 - p) ha]
  have hq : 2 ^ p * (n / 2 ^ p) + n % 2 ^ p = n := Nat.div_add_mod n (2 ^ p)
  have hr : n % 2 ^ p < 2 ^ p := Nat.mod_lt _ (Nat.two_pow_pos p)
  have hexp : n <<< (8 - p) = n / 2 ^ p * 256 + (n % 2 ^ p) * 2 ^ (8 - p) := by
    rw [Nat.shiftLeft_eq]
    calc n * 2 ^ (8 - p) = (2 ^ p * (n / 2 ^ p) + n % 2 ^ p) * 2 ^ (8 - p) := by rw [hq]
    _ = n / 2 ^ p * (2 ^ p * 2 ^ (8 - p)) + (n % 2 ^ p) * 2 ^ (8 - p) := by ring
    _ = n / 2 ^ p * 256 + (n % 2 ^ p) * 2 ^ (8 - p) := by rw [hpow]
  have hb : c >>> p + (n % 2 ^ p) * 2 ^ (8 - p) < 256 := by
    have h1 : c >>> p + (n % 2 ^ p) * 2 ^ (8 - p) < (n % 2 ^ p + 1) * 2 ^ (8 - p) := by
      rw [add_mul, one_mul]
      omega
    have h2 : (n % 2 ^ p + 1) * 2 ^ (8 - p) ≤ 2 ^ p * 2 ^ (8 - p) := by
      apply Nat.mul_le_mul_right
      omega
    omega
  rw [hexp,
    show c >>> p + (n / 2 ^ p * 256 + (n % 2 ^ p) * 2 ^ (8 - p)) =
      (c >>> p + (n % 2 ^ p) * 2 ^ (8 - p)) + n / 2 ^ p * 256 by ring,
    Nat.add_mul_mod_self_right, Nat.mod_eq_of_lt hb]
  ring

/-! ### Claim C6: the upward-motion blended column value -/

/-- C6 counterexample: at `progress = 0` with font column bytes `curr = 0`,
`next = 1`, both `send_matrix_shifted_letter` (DIR_U) and
`scroll_message_vert` (DIR_U) compute `0 >> 0 + 1 << 8 = 256`, while the
claimed 8-bit value `(curr >> p) | ((next << (8-p)) mod 256)` is `0`; the
computed value does not fit in one unsigned byte and at `p = 0` the current
character's byte is *not* transmitted unchanged. -/

theorem blend_colU_c6_counterexample :
    send_matrix_shifted_letter_colU [0] [1] 0 0 = 256 ∧
    scroll_message_vert_colU [0] [1] 0 0 = 256 ∧
    (((0 : Nat) >>> 0) ||| (((1 : Nat) <<< (8 - 0)) % 256)) = 0 ∧
    ¬ (256 : Nat) < 256 :=
  ⟨by decide, by decide, by decide, by decide⟩

/-- C6 (amended): for every progress `p < 8` and 8-bit font column bytes
`curr` and `next`, the upward-motion column value computed by
`send_matrix_shifted_letter` (DIR_U) and by the DIR_U branch of
`scroll_message_vert` is the *unmasked* sum `(curr >> p) + (next <<
(8-p))`; it agrees with the claimed byte `(curr >> p) | ((next << (8-p))
mod 256)` only modulo 256 — its low 8 bits are that byte — and at `p = 0`
the computed value is `curr + 256 * next`, which exceeds one unsigned byte
whenever `next ≠ 0`. -/

theorem blend_colU_spec (curr_char next_char : List Nat) (p col : Nat)
    (hc : curr_char.getD col 0 < 256) (hn : next_char.getD col 0 < 256)
    (hp : p < 8) :
    send_matrix_shifted_letter_colU curr_char next_char p col =
      ((curr_char.getD col 0) >>> p) + ((next_char.getD col 0) <<< (8 - p)) ∧
    scroll_message_vert_colU curr_char next_char p col =
      ((curr_char.getD col 0) >>> p) + ((next_char.getD col 0) <<< (8 - p)) ∧
    send_matrix_shifted_letter_colU curr_char next_char p col % 256 =
      ((curr_char.getD col 0) >>> p) |||
        ((((next_char.getD col 0)) <<< (8 - p)) % 256) ∧
    (p = 0 → send_matrix_shifted_letter_colU curr_char next_char p col =
      curr_char.getD col 0 + 256 * next_char.getD col 0) := by
  have hmods : p % 8 = p := Nat.mod_eq_of_lt hp
  refine ⟨?_, ?_, ?_, ?_⟩
  · unfold send_matrix_shifted_letter_colU
    rw [hmods]
  · unfold scroll_message_vert_colU
    rfl
  · unfold send_matrix_shifted_letter_colU
    rw [hmods]
    exact blend_mod_256 (curr_char.getD col 0) (next_char.getD col 0) p hc hn hp
  · intro hp0
    subst hp0
    unfold send_matrix_shifted_letter_colU
    simp [Nat.shiftLeft_eq]
    ring

/-- Witness for C6's amended theorem at `curr_char = [160]`, `next_char =
[129]`, `p = 3`, column 0. -/

theorem blend_colU_spec_witness :
    (([160] : List Nat).getD 0 0 < 256 ∧ ([129] : List Nat).getD 0 0 < 256 ∧ 3 < 8) ∧
    send_matrix_shifted_letter_colU [160] [129] 3 0 =
      ((([160] : List Nat).getD 0 0) >>> 3) + ((([129] : List Nat).getD 0 0) <<< (8 - 3)) ∧
    scroll_message_vert_colU [160] [129] 3 0 =
      ((([160] : List Nat).getD 0 0) >>> 3) + ((([129] : List Nat).getD 0 0) <<< (8 - 3)) ∧
    send_matrix_shifted_letter_colU [160] [129] 3 0 % 256 =
      ((([160] : List Nat).getD 0 0) >>> 3) |||
        (((([129] : List Nat).getD 0 0) <<< (8 - 3)) % 256) ∧
    (3 = 0 → send_matrix_shifted_letter_colU [160] [129] 3 0 =
      ([160] : List Nat).getD 0 0 + 256 * ([129] : List Nat).getD 0 0) :=
  ⟨⟨by decide, by decide, by decide⟩,
    blend_colU_spec [160] [129] 3 0 (by decide) (by decide) (by decide)⟩

/-! The per-column dynamics never inspects cell *values*, only whether a
cell is `None`, so running the process on a column of values is the same
as running it on the column of injection indices `0, 1, 2, …` and mapping
each index to its value afterwards.  The next lemmas prove this
naturality, reducing the effect's outcome for each of the four possible
speeds to a concrete computation on the index column. -/

theorem getD_map_opt (f : Int → Int) (t : List (Option Int)) (n : Nat) :
    (t.map (Option.map f)).getD n none = Option.map f (t.getD n none) := by
  simp only [List.getD_eq_getElem?_getD, List.getElem?_map]
  cases t[n]? <;> rfl

theorem firstEmpty_map (f : Int → Int) (t : List (Option Int)) :
    firstEmpty (t.map (Option.map f)) = firstEmpty t := by
  unfold firstEmpty
  rw [List.findIdx?_map]
  congr 1
  funext i
  simp [Function.comp]

theorem nextNotNone_map (f : Int → Int) (t : List (Option Int)) (l : Nat) :
    nextNotNone (t.map (Option.map f)) l = nextNotNone t l := by
  unfold nextNotNone
  rw [← List.map_drop, List.findIdx?_map]
  congr 2
  funext i
  simp [Function.comp]

theorem rainRowStep_map (f : Int → Int) (s M : Nat) (gval : Int)
    (t : List (Option Int)) (l : Nat) :
    rainRowStep s M (f gval) (t.map (Option.map f)) l =
      (rainRowStep s M gval t l).map (Option.map f) := by
  unfold rainRowStep
  rw [nextNotNone_map]
  cases h : nextNotNone t l with
  | none =>
    dsimp only
    by_cases hl : l = M
    · rw [if_pos hl, if_pos hl, List.map_set]
      rfl
    · rw [if_neg hl, if_neg hl]
  | some n0 =>
    dsimp only
    by_cases hn : min n0 (l + s) < M + 1
    · rw [if_pos hn, if_pos hn, getD_map_opt, List.map_set, List.map_set]
      rfl
    · rw [if_neg hn, if_neg hn]

theorem rainSweep_map (f : Int → Int) (s M : Nat) (gval : Int)
    (t : List (Option Int)) :
    rainSweep s M (f gval) (t.map (Option.map f)) =
      (rainSweep s M gval t).map (Option.map f) := by
  unfold rainSweep
  rw [firstEmpty_map]
  cases h : firstEmpty t with
  | none => rfl
  | some fe =>
    have haux : ∀ (l : List Nat) (t2 : List (Option Int)),
        l.foldl (rainRowStep s M (f gval)) (t2.map (Option.map f)) =
          (l.foldl (rainRowStep s M gval) t2).map (Option.map f) := by
      intro l
      induction l with
      | nil => intro t2; rfl
      | cons a l2 ih =>
        intro t2
        simp only [List.foldl_cons]
        rw [rainRowStep_map, ih]
    exact haux _ t

theorem colRain_natural (s M : Nat) (gc : List Int) :
    colRain s M gc =
      (colRain s M (idxColumn (M + 1))).map
        (Option.map (fun v => gc.getD v.toNat 0)) := by
  have hidx : ∀ k, k ≤ M → (idxColumn (M + 1)).getD k 0 = (k : Int) := by
    intro k hk
    unfold idxColumn
    simp only [List.getD_eq_getElem?_getD]
    rw [List.getElem?_map, List.getElem?_range (by omega)]
    rfl
  unfold colRain
  have haux : ∀ (l : List Nat), (∀ k ∈ l, k ≤ M) → ∀ (t : List (Option Int)),
      l.foldl (fun t2 k => rainSweep s M (gc.getD k 0) t2)
        (t.map (Option.map (fun v => gc.getD v.toNat 0))) =
      (l.foldl (fun t2 k => rainSweep s M ((idxColumn (M + 1)).getD k 0) t2)
        t).map (Option.map (fun v => gc.getD v.toNat 0)) := by
    intro l
    induction l with
    | nil => intro _ t; rfl
    | cons a l2 ih =>
      intro hmem t
      simp only [List.foldl_cons]
      rw [hidx a (hmem a (by simp)),
        show gc.getD a 0 = (fun v => gc.getD v.toNat 0) ((a : Nat) : Int) by
          simp [Int.toNat_natCast],
        rainSweep_map (fun v => gc.getD v.toNat 0) s M ((a : Nat) : Int) t,
        ih (fun k hk => hmem k (by simp [hk]))]
  have hinit : (List.replicate M (none : Option Int) ++ [some (gc.getD 0 0)]) =
      (List.replicate M (none : Option Int) ++
        [some ((idxColumn (M + 1)).getD 0 0)]).map
        (Option.map (fun v => gc.getD v.toNat 0)) := by
    rw [hidx 0 (by omega)]
    simp [List.map_replicate]
  rw [hinit, haux (List.range' 1 M) (by
    intro k hk
    have := List.mem_range'_1.mp hk
    omega)]

set_option maxRecDepth 100000 in

/-- Concrete run of the column process at speed 2 on the 24-row index
column: every injected index settles exactly at its own row. -/

theorem colRain_idx_speed2 :
    colRain 2 23 (idxColumn (23 + 1)) = (idxColumn 24).map some := by decide

set_option maxRecDepth 100000 in

/-- Concrete run of the column process at speed 3. -/

theorem colRain_idx_speed3 :
    colRain 3 23 (idxColumn (23 + 1)) = (idxColumn 24).map some := by decide

set_option maxRecDepth 100000 in

/-- Concrete run of the column process at speed 4. -/

theorem colRain_idx_speed4 :
    colRain 4 23 (idxColumn (23 + 1)) = (idxColumn 24).map some := by decide

set_option maxRecDepth 100000 in

/-- Concrete run of the column process at speed 5. -/

theorem colRain_idx_speed5 :
    colRain 5 23 (idxColumn (23 + 1)) = (idxColumn 24).map some := by decide

theorem colRain_final (s : Nat) (hs1 : 2 ≤ s) (hs2 : s ≤ 5) (gc : List Int)
    (r : Nat) (hr : r < 24) :
    (colRain s 23 gc).getD r none = some (gc.getD r 0) := by
  rw [colRain_natural s 23 gc, getD_map_opt]
  have hcol : colRain s 23 (idxColumn (23 + 1)) = (idxColumn 24).map some := by
    interval_cases s
    · exact colRain_idx_speed2
    · exact colRain_idx_speed3
    · exact colRain_idx_speed4
    · exact colRain_idx_speed5
  rw [hcol]
  have hval : ((idxColumn 24).map some).getD r none = some ((r : Nat) : Int) := by
    simp only [List.getD_eq_getElem?_getD]
    rw [List.getElem?_map]
    unfold idxColumn
    rw [List.getElem?_map, List.getElem?_range hr]
    rfl
  rw [hval]
  simp [Int.toNat_natCast]

theorem rain_fold_getD (W H : Nat) (speeds : List Nat) (g : List (List Int))
    (M c : Nat) (hc : c < W * 8) :
    ∀ (l : List Nat) (t : List (List (Option Int))), t.length = W * 8 →
      (l.foldl
        (fun t2 k =>
          t2.mapIdx (fun c2 tc => rainSweep (speeds.getD c2 0) M (cellD g c2 k) tc)) t).getD c [] =
      l.foldl (fun tc k => rainSweep (speeds.getD c 0) M (cellD g c k) tc) (t.getD c []) := by
  intro l
  induction l with
  | nil => intro t ht; rfl
  | cons a l2 ih =>
    intro t ht
    simp only [List.foldl_cons]
    rw [ih _ (by rw [List.length_mapIdx]; exact ht)]
    have hmap : (t.mapIdx
        (fun c2 tc => rainSweep (speeds.getD c2 0) M (cellD g c2 a) tc)).getD c [] =
        rainSweep (speeds.getD c 0) M (cellD g c a) (t.getD c []) := by
      simp only [List.getD_eq_getElem?_getD]
      rw [List.getElem?_mapIdx, List.getElem?_eq_getElem (by omega : c < t.length)]
      rfl
    rw [hmap]

theorem rain_tmp_getD (W H : Nat) (ng : List (List Int)) (speeds : List Nat)
    (c : Nat) (hc : c < W * 8) :
    (gfx_effect_rain_tmp W H ng speeds).getD c [] =
      colRain (speeds.getD c 0) (H * 8 - 1) ((normGrid ng (W * 8) (8 * H)).getD c []) := by
  simp only [gfx_effect_rain_tmp]
  rw [rain_fold_getD W H speeds (normGrid ng (W * 8) (8 * H)) (H * 8 - 1) c hc _ _
    (by simp)]
  have hinit : ((List.range (W * 8)).map
      (fun c2 => List.replicate (H * 8 - 1) (none : Option Int) ++
        [some (cellD (normGrid ng (W * 8) (8 * H)) c2 0)])).getD c [] =
      List.replicate (H * 8 - 1) (none : Option Int) ++
        [some (cellD (normGrid ng (W * 8) (8 * H)) c 0)] := by
    simp only [List.getD_eq_getElem?_getD]
    rw [List.getElem?_map, List.getElem?_range hc]
    rfl
  rw [hinit]
  rfl

/-! ### Claim C3: the rain effect reaches the target frame -/

/-- C3: `gfx_effect_rain` on the 3x3 grid always terminates — after the
initial render it runs exactly the `3*8 - 1 = 23` iterations
`iter in range(1, MATRIX_HEIGHT*8)`, a fixed finite bound — and for every
`new_graphic` and every per-column speed assignment with each speed in
`[2, 5]` (the range `randrange(2, 6)` draws from) its final render leaves
each buffer pixel equal to 1 exactly when the corresponding (normalised)
`new_graphic` entry is 1: the fully revealed target frame is reached
regardless of the speed assignment. -/

theorem gfx_effect_rain_spec (ng : List (List Int)) (speeds : List Nat)
    (c r : Nat) (hc : c < 24) (hr : r < 24)
    (hs : ∀ i, i < 24 → 2 ≤ speeds.getD i 0 ∧ speeds.getD i 0 ≤ 5) :
    (List.range' 1 (3 * 8 - 1)).length = 3 * 8 - 1 ∧
    gfx_effect_rain_buf 3 3 ng speeds c r = (if cellD ng c r = 1 then 1 else 0) := by
  refine ⟨by decide, ?_⟩
  unfold gfx_effect_rain_buf
  rw [rain_tmp_getD 3 3 ng speeds c (by omega),
    show (3 * 8 - 1 : Nat) = 23 by norm_num]
  obtain ⟨h2, h5⟩ := hs c hc
  rw [colRain_final (speeds.getD c 0) h2 h5 _ r hr]
  have hnorm := normGrid_cellD ng (3 * 8) (8 * 3) c r (by omega) (by omega)
  unfold cellD at hnorm
  rw [hnorm]
  simp only [cellD, Option.some.injEq]

/-- Witness for C3 at a small (automatically zero-padded) `new_graphic`
`[[1, 0], [0, 1]]`, speeds cycling through 2..5 per column, pixel `(0, 0)`. -/

theorem gfx_effect_rain_spec_witness :
    (∀ i, i < 24 → 2 ≤ ((List.range 24).map (fun i => 2 + i % 4)).getD i 0 ∧
      ((List.range 24).map (fun i => 2 + i % 4)).getD i 0 ≤ 5) ∧
    (List.range' 1 (3 * 8 - 1)).length = 3 * 8 - 1 ∧
    gfx_effect_rain_buf 3 3 [[1, 0], [0, 1]]
        ((List.range 24).map (fun i => 2 + i % 4)) 0 0 =
      (if cellD [[1, 0], [0, 1]] 0 0 = 1 then 1 else 0) :=
  ⟨by decide,
    gfx_effect_rain_spec [[1, 0], [0, 1]] ((List.range 24).map (fun i => 2 + i % 4))
      0 0 (by decide) (by decide) (by decide)⟩
